import Mathlib

/-!
Verification development for the document field-extraction engine of
`src/services/ocr_service.py` (class `OCRService`).

The Python functions `_extract_key_information`, `_extract_all_text`,
`_extract_company_info`, `_extract_multi_line_address`,
`_extract_director_info` and `_get_text_from_blocks` are shallowly embedded
below as pure Lean functions over `List String` (the linearized OCR lines)
and `List Block` (the OCR block graph).  Python strings are `String`,
`None`-able strings are `Option String`, Python truthiness of such a field
is `optFalsy`, and each `re` pattern used by the source is hand-compiled to
an executable matcher with the same semantics (anchored `re.match` vs
scanning `re.search`, greedy/lazy quantifiers, `re.IGNORECASE`).
Out-of-range list reads (which would raise `IndexError` in Python) are
embedded as reads of `""`; `""` matches none of the source's patterns, so on
every input where the Python code terminates normally the embedding computes
the same record.  I/O (debug prints, debug-file writes, database and task
notifications) does not influence the returned record and is not modelled.
-/

set_option maxRecDepth 20000

namespace Ocr

/-! All string primitives are implemented structurally over `String.data`
(`toList`), so that every definition reduces inside the kernel and concrete
runs of the engine can be settled by `decide`/`rfl`. -/

/-- Substring occurrence on char lists (Python `pat in s`; the empty needle
occurs everywhere). -/
def listHasSub (pat : List Char) : List Char → Bool
  | [] => pat.isEmpty
  | c :: rest => pat.isPrefixOf (c :: rest) || listHasSub pat rest

/-- Python `pat in s` (substring test). -/
def hasSub (s pat : String) : Bool := listHasSub pat.toList s.toList

/-- Python `s.strip()` on a char list. -/
def trimL (cs : List Char) : List Char :=
  ((cs.dropWhile Char.isWhitespace).reverse.dropWhile Char.isWhitespace).reverse

/-- Python `s.strip()`. -/
def pyStrip (s : String) : String := String.mk (trimL s.toList)

/-- Python `s.upper()`. -/
def pyUpper (s : String) : String := String.mk (s.toList.map Char.toUpper)

/-- Python `s.lower()`. -/
def pyLower (s : String) : String := String.mk (s.toList.map Char.toLower)

/-- Python `p.startswith(s)` reads: `pyStartsWith p s` — `p` is a prefix of `s`. -/
def pyStartsWith (p s : String) : Bool := p.toList.isPrefixOf s.toList

/-- Split a char list on a separator character (Python `s.split(sep)` for a
one-character separator; `"".split(sep) == [""]`). -/
def splitOnChGo (sep : Char) : List Char → List Char → List (List Char)
  | acc, [] => [acc.reverse]
  | acc, c :: rest =>
    if c == sep then acc.reverse :: splitOnChGo sep [] rest
    else splitOnChGo sep (c :: acc) rest

/-- Python `s.split(sep)` for a one-character separator. -/
def pySplitOnCh (sep : Char) (s : String) : List String :=
  (splitOnChGo sep [] s.toList).map String.mk

/-- Whitespace-run word splitting on char lists. -/
def wordsGo : List Char → List Char → List (List Char)
  | acc, [] => if acc.isEmpty then [] else [acc.reverse]
  | acc, c :: rest =>
    if c.isWhitespace then
      (if acc.isEmpty then wordsGo [] rest else acc.reverse :: wordsGo [] rest)
    else wordsGo (c :: acc) rest

/-- Python `s.split()`: split on whitespace runs, dropping empty pieces. -/
def pySplit (s : String) : List String := (wordsGo [] s.toList).map String.mk

/-- Python `sep.join(items)`. -/
def joinSep (sep : String) : List String → String
  | [] => ""
  | [x] => x
  | x :: y :: xs => x ++ sep ++ joinSep sep (y :: xs)

/-- Python truthiness of an optional string: `None` and `""` are falsy. -/
def optFalsy (o : Option String) : Bool :=
  match o with
  | none => true
  | some s => s == ""

/-- `[A-Z]` (no `re.IGNORECASE`). -/
def isUpperAZ (c : Char) : Bool := decide ('A' ≤ c) && decide (c ≤ 'Z')

/-- `\w` on the ASCII inputs the source handles. -/
def isWordChar (c : Char) : Bool := c.isAlphanum || c == '_'

/-- First index in `[a, a+n)` satisfying `p` (the Python `for ... break` scan). -/
def findFirst (p : Nat → Bool) : Nat → Nat → Option Nat
  | _, 0 => none
  | a, n + 1 => if p a then some a else findFirst p (a + 1) n

/-- Scan every suffix with `f` (the position sweep of `re.search`). -/
def searchList (f : List Char → Bool) : List Char → Bool
  | [] => f []
  | c :: rest => f (c :: rest) || searchList f rest

/-- Scan every suffix with an extractor, returning the leftmost hit. -/
def searchSomeL (f : List Char → Option (List Char)) : List Char → Option (List Char)
  | [] => f []
  | c :: rest =>
    match f (c :: rest) with
    | some r => some r
    | none => searchSomeL f rest

/-- Scan every suffix with a string-valued extractor, leftmost hit. -/
def searchSomeS (f : List Char → Option String) : List Char → Option String
  | [] => f []
  | c :: rest =>
    match f (c :: rest) with
    | some r => some r
    | none => searchSomeS f rest

/-- Anchored `sdn\.?\s*bhd` (the trailing `\.?` never affects a boolean
search) on an upper-cased suffix; used for `re.search(r'sdn\.?\s*bhd\.?', line,
re.IGNORECASE)`. -/
def sdnBhdAt : List Char → Bool
  | 'S' :: 'D' :: 'N' :: rest =>
    let rest1 := match rest with
      | '.' :: r => r
      | r => r
    (match rest1.dropWhile Char.isWhitespace with
     | 'B' :: 'H' :: 'D' :: _ => true
     | _ => false)
  | _ => false

/-- `re.search(r'sdn\.?\s*bhd\.?', line, re.IGNORECASE)` as a boolean. -/
def sdnBhdSearch (s : String) : Bool := searchList sdnBhdAt (pyUpper s).toList

/-- Anchored `sdn\.?\s*bhd\.?` returning the suffix after the match
(greedily taking the trailing dot), on an upper-cased suffix. -/
def sdnBhdEndAt : List Char → Option (List Char)
  | 'S' :: 'D' :: 'N' :: rest =>
    let rest1 := match rest with
      | '.' :: r => r
      | r => r
    (match rest1.dropWhile Char.isWhitespace with
     | 'B' :: 'H' :: 'D' :: r2 =>
       some (match r2 with
             | '.' :: r3 => r3
             | r3 => r3)
     | _ => none)
  | _ => none

/-- Anchored `\(\d{6,7}-[A-Z]\)`; with `ci` the letter class is `[A-Za-z]`
(the effect of `re.IGNORECASE` on `[A-Z]`). -/
def bracketAt (ci : Bool) (cs : List Char) : Bool :=
  match cs with
  | '(' :: rest =>
    let ds := rest.takeWhile Char.isDigit
    let r2 := rest.dropWhile Char.isDigit
    (ds.length == 6 || ds.length == 7) &&
      (match r2 with
       | '-' :: c :: ')' :: _ => if ci then c.isAlpha else isUpperAZ c
       | _ => false)
  | _ => false

/-- Anchored `\(\d{6,7}-[A-Z]\)` returning the matched characters. -/
def bracketMatchAt (cs : List Char) : Option (List Char) :=
  match cs with
  | '(' :: rest =>
    let ds := rest.takeWhile Char.isDigit
    let r2 := rest.dropWhile Char.isDigit
    if ds.length == 6 || ds.length == 7 then
      match r2 with
      | '-' :: c :: ')' :: _ =>
        if isUpperAZ c then some ('(' :: (ds ++ ['-', c, ')'])) else none
      | _ => none
    else none
  | _ => none

/-- Next 12 characters exist and are digits (`\d{12}` at this position). -/
def take12Digits (cs : List Char) : Bool :=
  (cs.take 12).length == 12 && (cs.take 12).all Char.isDigit

/-- Anchored `\d{12}\s*\(\d{6,7}-[A-Z]\)`. -/
def reg12BracketAt (cs : List Char) : Bool :=
  take12Digits cs && bracketAt false ((cs.drop 12).dropWhile Char.isWhitespace)

/-- `re.match(r'\d{12}\s*\(\d{6,7}-[A-Z]\)', line)` (anchored at the start). -/
def reg12BracketMatch (s : String) : Bool := reg12BracketAt s.toList

/-- `re.search(r'\d{12}\s*\(\d{6,7}-[A-Z]\)', line)` as a boolean. -/
def reg12BracketSearch (s : String) : Bool := searchList reg12BracketAt s.toList

/-- Anchored `(\d{12}\s*\(\d{6,7}-[A-Z]\))` returning the matched group. -/
def reg12BracketGroupAt (cs : List Char) : Option (List Char) :=
  if take12Digits cs then
    let ws := (cs.drop 12).takeWhile Char.isWhitespace
    match bracketMatchAt ((cs.drop 12).dropWhile Char.isWhitespace) with
    | some b => some ((cs.take 12) ++ ws ++ b)
    | none => none
  else none

/-- `re.search(r'(\d{12}\s*\(\d{6,7}-[A-Z]\))', line).group(1)`. -/
def reg12BracketGroup (s : String) : Option String :=
  (searchSomeL reg12BracketGroupAt s.toList).map (fun l => String.mk l)

/-- `re.match(r'^\d{12}$', line)`: the whole line is 12 digits. -/
def all12Digits (s : String) : Bool := s.length == 12 && s.toList.all Char.isDigit

/-- `re.match(r'^\(\d{6,7}-[A-Z]\)$', line)`: a bracketed suffix alone. -/
def bracketOnlyFull (s : String) : Bool :=
  match bracketMatchAt s.toList with
  | some m => m.length == s.toList.length
  | none => false

/-- Lazy `.*?\(\d{6,7}-[A-Z]\)`: shortest extension reaching a bracket match,
returning skipped middle plus the bracket text. -/
def middleBracket : List Char → Option (List Char)
  | [] => none
  | c :: rest =>
    match bracketMatchAt (c :: rest) with
    | some b => some b
    | none => (middleBracket rest).map (fun l => c :: l)

/-- Anchored `\d{12}.*?\(\d{6,7}-[A-Z]\)` returning the matched text. -/
def fmt4At (cs : List Char) : Option (List Char) :=
  if take12Digits cs then (middleBracket (cs.drop 12)).map (fun l => cs.take 12 ++ l)
  else none

/-- `re.search(r'(\d{12}.*?\(\d{6,7}-[A-Z]\))', line)`, `.group(1).strip()`. -/
def fmt4Group (s : String) : Option String :=
  (searchSomeL fmt4At s.toList).map (fun l => pyStrip (String.mk l))

/-- `re.search(r'\(\d{6,7}-[A-Z]\)', line)` (case sensitive). -/
def bracketSearchCS (s : String) : Bool := searchList (bracketAt false) s.toList

/-- `re.search(r'sdn\.?\s*bhd\.?.*\(\d{6,7}-[A-Z]\)', line, re.IGNORECASE)`:
after the leftmost sdn-bhd match, a (case-insensitive) bracket pattern occurs
somewhere in the remaining suffix. -/
def sdnBhdBracketSearch (s : String) : Bool :=
  match searchSomeL sdnBhdEndAt (pyUpper s).toList with
  | some rest => searchList (bracketAt false) rest
  | none => false

/-- `re.search(r'(.+?)\s*\(\d{6,7}-[A-Z]\)', line, re.IGNORECASE)`: lazy
group(1) = the shortest nonempty prefix followed (after whitespace) by a
bracket pattern; the source then applies `.strip()`. -/
def rule3Group (s : String) : Option String :=
  let cs := s.toList
  (List.range cs.length).findSome? (fun k0 =>
    let k := k0 + 1
    if bracketAt true ((cs.drop k).dropWhile Char.isWhitespace) then
      some (pyStrip (String.mk (cs.take k)))
    else none)

/-- Anchored `\d{2}/\d{2}/\d{4}` (prefix, as `re.match` leaves the tail free). -/
def dateSlashAt (cs : List Char) : Bool :=
  match cs with
  | a :: b :: '/' :: c :: d :: '/' :: e :: f :: g :: h :: _ =>
    a.isDigit && b.isDigit && c.isDigit && d.isDigit &&
    e.isDigit && f.isDigit && g.isDigit && h.isDigit
  | _ => false

/-- Anchored `\d{2}-\d{2}-\d{4}` (prefix). -/
def dateDashAt (cs : List Char) : Bool :=
  match cs with
  | a :: b :: '-' :: c :: d :: '-' :: e :: f :: g :: h :: _ =>
    a.isDigit && b.isDigit && c.isDigit && d.isDigit &&
    e.isDigit && f.isDigit && g.isDigit && h.isDigit
  | _ => false

/-- `re.match(r'^\d{2}-\d{2}-\d{4}$', line)`: the dashed date fills the line. -/
def dateDashFull (s : String) : Bool := dateDashAt s.toList && s.length == 10

/-- `re.match(r'^\d{8}$', line)`. -/
def digits8Full (s : String) : Bool := s.length == 8 && s.toList.all Char.isDigit

/-- `re.search(r'\b\d{8,12}\b', s)`: leftmost maximal digit run of length
8..12 delimited by non-word characters (or the string ends). -/
def phoneRunGo : Bool → List Char → Option String
  | _, [] => none
  | prevWord, c :: rest =>
    if c.isDigit && !prevWord then
      let run := c :: rest.takeWhile Char.isDigit
      let after := rest.dropWhile Char.isDigit
      if decide (8 ≤ run.length) && decide (run.length ≤ 12) &&
         (match after with
          | [] => true
          | d :: _ => !isWordChar d) then
        some (String.mk run)
      else phoneRunGo (isWordChar c) rest
    else phoneRunGo (isWordChar c) rest

/-- `re.search(r'\b\d{8,12}\b', s)` returning the matched digits. -/
def phoneRunSearch (s : String) : Option String := phoneRunGo false s.toList

/-- Anchored `\d{2}-\d{4}\s*\d{4}`. -/
def groupedPhoneAt (cs : List Char) : Bool :=
  match cs with
  | a :: b :: '-' :: c :: d :: e :: f :: rest =>
    a.isDigit && b.isDigit && c.isDigit && d.isDigit && e.isDigit && f.isDigit &&
      (let r := (rest.dropWhile Char.isWhitespace).take 4
       r.length == 4 && r.all Char.isDigit)
  | _ => false

/-- `re.search(r'\d{2}-\d{4}\s*\d{4}', line)`. -/
def groupedPhoneSearch (s : String) : Bool := searchList groupedPhoneAt s.toList

/-- The character class `[\d-\s]` of the `+60` phone pattern. -/
def classDWS (c : Char) : Bool := c.isDigit || c == '-' || c.isWhitespace

/-- Anchored `\+60\s*([\d-\s]+)`: the group is the maximal class run after
`+60` (nonempty), and the source strips `[\s-]` from it, leaving digits.
(Note: the class `[\d-\s]` is itself rejected by modern CPython's `re` as a
bad character range when this branch is reached; the embedding models the
evident digit/dash/whitespace intent.  No claim in this development depends
on this branch firing.) -/
def plusSixtyAt (cs : List Char) : Option String :=
  match cs with
  | '+' :: '6' :: '0' :: rest =>
    let run := rest.takeWhile classDWS
    if run.isEmpty then none else some (String.mk (run.filter Char.isDigit))
  | _ => none

/-- `re.sub(r'[\s-]', '', re.search(r'\+60\s*([\d-\s]+)', line).group(1))`. -/
def plusSixtyExtract (s : String) : Option String := searchSomeS plusSixtyAt s.toList

/-- `re.search(r'^[A-Z][A-Z\s]+$', line)`: anchored on both ends, so a full
match — an uppercase letter followed by one or more uppercase letters or
whitespace. -/
def upperNameMatch (s : String) : Bool :=
  match s.toList with
  | [] => false
  | c :: rest =>
    isUpperAZ c && !rest.isEmpty && rest.all (fun d => isUpperAZ d || d.isWhitespace)

/-! ### `_extract_multi_line_address` -/

/-- Prefix test on char lists (needle, haystack) returning the rest. -/
def dropPrefixCh : List Char → List Char → Option (List Char)
  | [], cs => some cs
  | _ :: _, [] => none
  | k :: ks, c :: cs2 => if k == c then dropPrefixCh ks cs2 else none

/-- Anchored `KW\s+<class>` (one keyword, mandatory whitespace, one class
character — the head of `\w+`/`\d+`). -/
def kwWsClsAt (kw : List Char) (cls : Char → Bool) (cs : List Char) : Bool :=
  match dropPrefixCh kw cs with
  | some rest =>
    (match rest with
     | c :: _ => c.isWhitespace
     | [] => false) &&
    (match rest.dropWhile Char.isWhitespace with
     | c :: _ => cls c
     | [] => false)
  | none => false

/-- `re.search(r'KW\s+\w+', line, re.IGNORECASE)`-style indicator. -/
def kwWsCls (kw : String) (cls : Char → Bool) (s : String) : Bool :=
  searchList (kwWsClsAt kw.toList cls) (pyUpper s).toList

/-- Anchored `K1\s+K2` (two keywords joined by mandatory whitespace). -/
def kwWsKwAt (k1 k2 : List Char) (cs : List Char) : Bool :=
  match dropPrefixCh k1 cs with
  | some rest =>
    (match rest with
     | c :: _ => c.isWhitespace
     | [] => false) &&
    (match dropPrefixCh k2 (rest.dropWhile Char.isWhitespace) with
     | some _ => true
     | none => false)
  | none => false

/-- `re.search(r'K1\s+K2', line, re.IGNORECASE)`. -/
def kwWsKw (k1 k2 s : String) : Bool := searchList (kwWsKwAt k1.toList k2.toList) (pyUpper s).toList

/-- Anchored `NO\.?\s*\d+` head (optional dot, optional whitespace, a digit). -/
def noNumAt (cs : List Char) : Bool :=
  match cs with
  | 'N' :: 'O' :: rest =>
    let rest1 := match rest with
      | '.' :: r => r
      | r => r
    (match rest1.dropWhile Char.isWhitespace with
     | c :: _ => c.isDigit
     | [] => false)
  | _ => false

/-- Anchored `[A-Z]\d{4}` under `re.IGNORECASE` (any letter, four digits). -/
def letterD4At (cs : List Char) : Bool :=
  match cs with
  | c :: rest => c.isAlpha && (rest.take 4).length == 4 && (rest.take 4).all Char.isDigit
  | [] => false

/-- Anchored `\d{5}\s+\w+`. -/
def postal5WordAt (cs : List Char) : Bool :=
  (cs.take 5).length == 5 && (cs.take 5).all Char.isDigit &&
  (match cs.drop 5 with
   | c :: _ => c.isWhitespace
   | [] => false) &&
  (match (cs.drop 5).dropWhile Char.isWhitespace with
   | c :: _ => isWordChar c
   | [] => false)

/-- `re.search(r'\d{5}', line)`: five consecutive digits anywhere. -/
def digits5Search (s : String) : Bool :=
  searchList (fun cs => (cs.take 5).length == 5 && (cs.take 5).all Char.isDigit) s.toList

/-- The continuations of `\d{1,3}` at a position (all ways the group can
consume 1 to 3 digits). -/
def g13 (cs : List Char) : List (List Char) :=
  (List.range 3).filterMap (fun k =>
    let n := k + 1
    if (cs.take n).length == n && (cs.take n).all Char.isDigit then some (cs.drop n)
    else none)

/-- The continuations of `-?` at a position. -/
def optDash (cs : List Char) : List (List Char) :=
  match cs with
  | '-' :: r => [cs, r]
  | _ => [cs]

/-- Anchored `\d{1,3}-?\d{1,3}-?\d{1,3}` with full backtracking (existence);
the optional `[A-Z]?` ends of the source pattern never constrain a search. -/
def trioAt (cs : List Char) : Bool :=
  (g13 cs).any (fun r1 =>
    (optDash r1).any (fun r2 =>
      (g13 r2).any (fun r3 =>
        (optDash r3).any (fun r4 => !(g13 r4).isEmpty))))

/-- `re.search(r'[A-Z]?\d{1,3}-?\d{1,3}-?\d{1,3}[A-Z]?', line, re.IGNORECASE)`. -/
def trioSearch (s : String) : Bool := searchList trioAt s.toList

/-- The 33 `address_indicators` patterns of `_extract_multi_line_address`,
in source order, each as a boolean over one line. -/
def addressIndicators (line : String) : List Bool :=
  [ trioSearch line,
    searchList letterD4At line.toList,
    kwWsCls "LOT" isWordChar line,
    kwWsCls "UNIT" Char.isDigit line,
    searchList noNumAt (pyUpper line).toList,
    kwWsCls "JALAN" isWordChar line,
    kwWsCls "PERSIARAN" isWordChar line,
    kwWsCls "LORONG" isWordChar line,
    kwWsCls "TAMAN" isWordChar line,
    kwWsCls "BANDAR" isWordChar line,
    kwWsCls "KEPONG" isWordChar line,
    kwWsCls "WISMA" isWordChar line,
    kwWsCls "MENARA" isWordChar line,
    kwWsCls "PLAZA" isWordChar line,
    hasSub (pyUpper line) "RESIDENCE",
    hasSub (pyUpper line) "CONDOMINIUM",
    searchList postal5WordAt line.toList,
    kwWsKw "KUALA" "LUMPUR" line,
    hasSub (pyUpper line) "SELANGOR",
    hasSub (pyUpper line) "JOHOR",
    hasSub (pyUpper line) "PENANG",
    hasSub (pyUpper line) "PERAK",
    hasSub (pyUpper line) "SABAH",
    hasSub (pyUpper line) "SARAWAK",
    hasSub (pyUpper line) "KEDAH",
    hasSub (pyUpper line) "KELANTAN",
    hasSub (pyUpper line) "TERENGGANU",
    hasSub (pyUpper line) "PAHANG",
    kwWsKw "NEGERI" "SEMBILAN" line,
    hasSub (pyUpper line) "MELAKA",
    hasSub (pyUpper line) "PERLIS",
    hasSub (pyUpper line) "PUTRAJAYA",
    hasSub (pyUpper line) "LABUAN" ]

/-- `address_score` of one line: one point per matching indicator, plus two
for a 5-digit run, plus two for a literal `MALAYSIA`. -/
def addrScore (line : String) : Nat :=
  ((addressIndicators line).filter (fun b => b)).length
  + (if digits5Search line then 2 else 0)
  + (if hasSub line "MALAYSIA" then 2 else 0)

/-- Lines skipped outright by the candidate sweep. -/
def candSkip (line : String) : Bool :=
  line == "" || line == "Business Address" || line == "Registered Address" || line == "NIL" ||
  hasSub line "Business Phone" || hasSub line "Fax" || hasSub line "Email" ||
  hasSub line "Office No NIL" || hasSub line "PARTICULARS" || hasSub line "DIRECTOR" ||
  hasSub line "MEMBER"

/-- `address_candidates`: (index, stripped line, score) for score > 0, in
line order. -/
def addrCands (lines : List String) : List (Nat × String × Nat) :=
  (List.range lines.length).filterMap (fun i =>
    let line := pyStrip (lines.getD i "")
    if candSkip line then none
    else
      let sc := addrScore line
      if decide (0 < sc) then some (i, line, sc) else none)

/-- Stable insertion for the embedding of Python's stable `list.sort`. -/
def insertBy (r : (Nat × String × Nat) → (Nat × String × Nat) → Bool)
    (x : Nat × String × Nat) : List (Nat × String × Nat) → List (Nat × String × Nat)
  | [] => [x]
  | y :: ys => if r x y then x :: y :: ys else y :: insertBy r x ys

/-- Stable sort (Python `list.sort`). -/
def sortBy (r : (Nat × String × Nat) → (Nat × String × Nat) → Bool) :
    List (Nat × String × Nat) → List (Nat × String × Nat)
  | [] => []
  | x :: xs => insertBy r x (sortBy r xs)

/-- The group-extension stop keywords. -/
def stopKw2 (line : String) : Bool :=
  hasSub line "Business Phone" || hasSub line "Fax" || hasSub line "Email" ||
  hasSub line "Office No"

/-- The inner `for j` loop: extend a group with following candidates while
each is within 2 lines of the (rolling) start index, scores at least 3, and
carries no stop keyword. -/
def growGroup : Nat → List (Nat × String × Nat) → List String × Nat
  | _, [] => ([], 0)
  | sIdx, (nIdx, nLine, nScore) :: rest =>
    if decide (nIdx ≤ sIdx + 2) && decide (3 ≤ nScore) && !stopKw2 nLine then
      let g := growGroup nIdx rest
      (nLine :: g.1, nScore + g.2)
    else ([], 0)

/-- The outer scan keeping the best (highest combined score) group. -/
def bestGroup : List String × Nat → List (Nat × String × Nat) → List String × Nat
  | best, [] => best
  | best, (idx, line, score) :: rest =>
    let ext := growGroup idx rest
    let cur := (line :: ext.1, score + ext.2)
    bestGroup (if decide (best.2 < cur.2) then cur else best) rest

/-- One `B-(\d{1,2})-(\d{2})` attempt just after a literal `B-`, greedy on
the first group, returning replacement text and the rest. -/
def tryBdashLen (n : Nat) (rest : List Char) : Option (List Char × List Char) :=
  let ds := rest.take n
  if ds.length == n && ds.all Char.isDigit then
    match rest.drop n with
    | '-' :: r2 =>
      let d2 := r2.take 2
      if d2.length == 2 && d2.all Char.isDigit then some ('B' :: (ds ++ d2), r2.drop 2)
      else none
    | _ => none
  else none

/-- Greedy-then-backtracked `\d{1,2}` of the `B-` cleanup. -/
def tryBdash (rest : List Char) : Option (List Char × List Char) :=
  match tryBdashLen 2 rest with
  | some r => some r
  | none => tryBdashLen 1 rest

/-- `re.sub(r'B-(\d{1,2})-(\d{2})', r'B\1\2', s)` (fuelled scanner; fuel =
input length suffices, every step consumes at least one character). -/
def bdashGo : Nat → List Char → List Char
  | 0, cs => cs
  | fuel + 1, cs =>
    match cs with
    | [] => []
    | 'B' :: '-' :: rest =>
      (match tryBdash rest with
       | some (rep, r2) => rep ++ bdashGo fuel r2
       | none => 'B' :: bdashGo fuel ('-' :: rest))
    | c :: rest => c :: bdashGo fuel rest

/-- `re.sub(r'\s+', ' ', s)`: collapse each whitespace run to one space. -/
def collapseWsGo : Bool → List Char → List Char
  | _, [] => []
  | prevWs, c :: rest =>
    if c.isWhitespace then
      (if prevWs then collapseWsGo true rest else ' ' :: collapseWsGo true rest)
    else c :: collapseWsGo false rest

/-- `re.sub(r',\s*,', ',', s)` (fuelled; non-overlapping, left to right). -/
def commaSubGo : Nat → List Char → List Char
  | 0, cs => cs
  | fuel + 1, cs =>
    match cs with
    | [] => []
    | ',' :: rest =>
      (match rest.dropWhile Char.isWhitespace with
       | ',' :: r2 => ',' :: commaSubGo fuel r2
       | _ => ',' :: commaSubGo fuel rest)
    | c :: rest => c :: commaSubGo fuel rest

/-- Python `s.strip(', ')`. -/
def stripCS (cs : List Char) : List Char :=
  ((cs.dropWhile (fun c => c == ',' || c == ' ')).reverse.dropWhile
      (fun c => c == ',' || c == ' ')).reverse

/-- `_extract_multi_line_address(lines)`. -/
def extractMultiLineAddress (lines : List String) : Option String :=
  let cands := addrCands lines
  if cands.isEmpty then none
  else
    let c1 := sortBy (fun x y => decide (y.2.2 ≤ x.2.2)) cands
    let c2 := sortBy (fun x y => decide (x.1 ≤ y.1)) c1
    let best := bestGroup ([], 0) c2
    if best.1.isEmpty then none
    else
      let fa := joinSep ", " best.1
      let fa1 := String.mk (bdashGo fa.toList.length fa.toList)
      let fa2 := String.mk (collapseWsGo false fa1.toList)
      let fa3 := String.mk (commaSubGo fa2.toList.length fa2.toList)
      let fa4 := String.mk (stripCS fa3.toList)
      if fa4 == "" then none else some fa4

/-! ### `_extract_company_info` -/

/-- The six scalar fields accumulated by `_extract_company_info`. -/
structure CompanyInfo where
  company_name : Option String
  registration_number : Option String
  incorporation_date : Option String
  company_type : Option String
  business_address : Option String
  business_phone : Option String
deriving Repr, DecidableEq

/-- The all-`None` initial dictionary. -/
def initCompany : CompanyInfo := ⟨none, none, none, none, none, none⟩

/-- Rule-2 exclusion keywords, checked on the lower-cased line. -/
def nameKw (line : String) : Bool :=
  hasSub (pyLower line) "proposed" || hasSub (pyLower line) "name" ||
  hasSub (pyLower line) "company" || hasSub (pyLower line) "registration" ||
  hasSub (pyLower line) "business" || hasSub (pyLower line) "nature"

/-- Company-name rule 1: a "Proposed name" label line followed by a line
containing `SDN` (upper-cased); note no not-already-set guard. -/
def nameRule1 (lines : List String) (i : Nat) (ci : CompanyInfo) : CompanyInfo :=
  let line := pyStrip (lines.getD i "")
  if hasSub line "Proposed name" && decide (i + 1 < lines.length) then
    let next := pyStrip (lines.getD (i + 1) "")
    if !(next == "") && hasSub (pyUpper next) "SDN" then
      { ci with
        company_name := some next,
        company_type := if hasSub next "SDN. BHD." then some "SDN. BHD." else ci.company_type }
    else ci
  else ci

/-- Company-name rule 2: a short standalone sdn-bhd line, free of the
exclusion keywords; guarded by the field being unset. -/
def nameRule2 (lines : List String) (i : Nat) (ci : CompanyInfo) : CompanyInfo :=
  let line := pyStrip (lines.getD i "")
  if optFalsy ci.company_name && sdnBhdSearch line &&
     decide ((pySplit line).length ≤ 8) && !nameKw line then
    { ci with
      company_name := some line,
      company_type := if sdnBhdSearch line then some "SDN. BHD." else ci.company_type }
  else ci

/-- Company-name rule 3: a line carrying both an sdn-bhd token and a
bracketed registration pattern; guarded by the field being unset. -/
def nameRule3 (lines : List String) (i : Nat) (ci : CompanyInfo) : CompanyInfo :=
  let line := pyStrip (lines.getD i "")
  if optFalsy ci.company_name && sdnBhdBracketSearch line then
    match rule3Group line with
    | some pn =>
      if hasSub (pyLower pn) "sdn" then
        { ci with company_name := some pn, company_type := some "SDN. BHD." }
      else ci
    | none => ci
  else ci

/-- The three company-name rules of one loop iteration, in source order. -/
def nameStep (lines : List String) (i : Nat) (ci : CompanyInfo) : CompanyInfo :=
  nameRule3 lines i (nameRule2 lines i (nameRule1 lines i ci))

/-- The four registration-number formats of one loop iteration (an
`if`/`elif` chain in the source). -/
def regStep (lines : List String) (i : Nat) (ci : CompanyInfo) : CompanyInfo :=
  let line := pyStrip (lines.getD i "")
  if reg12BracketMatch line then { ci with registration_number := some line }
  else if reg12BracketSearch line then
    match reg12BracketGroup line with
    | some g => { ci with registration_number := some g }
    | none => ci
  else if all12Digits line && optFalsy ci.registration_number then
    if decide (i + 1 < lines.length) then
      let next := pyStrip (lines.getD (i + 1) "")
      if bracketOnlyFull next then { ci with registration_number := some (line ++ " " ++ next) }
      else { ci with registration_number := some line }
    else { ci with registration_number := some line }
  else if optFalsy ci.registration_number && bracketSearchCS line then
    match fmt4Group line with
    | some g => { ci with registration_number := some g }
    | none => ci
  else ci

/-- The incorporation-date rules of one loop iteration: labelled pair with
three value shapes (the 8-digit shape reformatted), then the standalone
dashed-date fallback. -/
def dateRule1 (lines : List String) (i : Nat) (ci : CompanyInfo) : CompanyInfo :=
  let line := pyStrip (lines.getD i "")
  if hasSub line "Incorporation Date" && decide (i + 1 < lines.length) then
    let next := pyStrip (lines.getD (i + 1) "")
    if dateSlashAt next.toList then { ci with incorporation_date := some next }
    else if dateDashAt next.toList then { ci with incorporation_date := some next }
    else if digits8Full next then
      let fd := String.mk (next.toList.take 2) ++ "/" ++
                String.mk ((next.toList.drop 2).take 2) ++ "/" ++
                String.mk (next.toList.drop 4)
      { ci with incorporation_date := some fd }
    else ci
  else ci

/-- The standalone dashed-date fallback, guarded by the field being unset. -/
def dateRule2 (lines : List String) (i : Nat) (ci : CompanyInfo) : CompanyInfo :=
  let line := pyStrip (lines.getD i "")
  if optFalsy ci.incorporation_date && dateDashFull line then
    { ci with incorporation_date := some line }
  else ci

/-- Both incorporation-date rules of one loop iteration, in source order. -/
def dateStep (lines : List String) (i : Nat) (ci : CompanyInfo) : CompanyInfo :=
  dateRule2 lines i (dateRule1 lines i ci)

/-- Stop keywords of the "Business Address" line collector. -/
def bizStop (l : String) : Bool :=
  hasSub l "Business Phone" || hasSub l "Fax" || hasSub l "Email" ||
  hasSub l "Office No NIL" || hasSub l "Nature of Business" || hasSub l "SSM einfo" ||
  hasSub l "Printing Date" || hasSub l "MENARA SSM"

/-- Lines skipped (not collected) by the "Business Address" collector. -/
def bizSkip (l : String) : Bool :=
  l == "NIL" || pyStartsWith "SSM einfo" l || pyStartsWith "Printing Date" l ||
  hasSub l "MENARA SSM" || pyStartsWith "This company information" l

/-- The `while j < len(lines) and lines[j].strip()` collector after a
"Business Address" label (fuelled; fuel `lines.length` suffices). -/
def collectBiz (lines : List String) : Nat → Nat → List String
  | _, 0 => []
  | j, fuel + 1 =>
    if decide (j < lines.length) then
      let cur := pyStrip (lines.getD j "")
      if cur == "" then []
      else if bizStop cur then []
      else if bizSkip cur then collectBiz lines (j + 1) fuel
      else cur :: collectBiz lines (j + 1) fuel
    else []

/-- Business-nature phrases that truncate the collected address. -/
def naturePhrase (l : String) : Bool :=
  hasSub (pyUpper l) "TO CARRY ON" || hasSub (pyUpper l) "GENERAL TRADING" ||
  hasSub (pyUpper l) "NATURE OF BUSINESS"

/-- Stop keywords of the "Registered Address" collector. -/
def regAddrStop (l : String) : Bool :=
  hasSub l "Business Phone" || hasSub l "Fax" || hasSub l "Email" || hasSub l "Office No"

/-- The "Registered Address" line collector. -/
def collectReg (lines : List String) : Nat → Nat → List String
  | _, 0 => []
  | j, fuel + 1 =>
    if decide (j < lines.length) then
      let cur := pyStrip (lines.getD j "")
      if cur == "" then []
      else if regAddrStop cur then []
      else if cur == "NIL" then collectReg lines (j + 1) fuel
      else cur :: collectReg lines (j + 1) fuel
    else []

/-- Continuation scan of the `": NO."` rule: up to four following lines,
breaking on business-nature phrases, appending (then stopping at) the first
line with a postal code or a state name. -/
def colonNoCont (lines : List String) : Nat → Nat → List String
  | _, 0 => []
  | k, fuel + 1 =>
    let nal := pyStrip (lines.getD k "")
    if hasSub (pyUpper nal) "NATURE OF BUSINESS" || hasSub (pyUpper nal) "TO CARRY ON" ||
       hasSub (pyUpper nal) "SSM EINFO" || hasSub (pyUpper nal) "GENERAL TRADING" then []
    else if digits5Search nal || hasSub (pyUpper nal) "SELANGOR" ||
            hasSub (pyUpper nal) "KUALA LUMPUR" || hasSub (pyUpper nal) "JOHOR" ||
            hasSub (pyUpper nal) "PENANG" || hasSub (pyUpper nal) "PERAK" ||
            hasSub (pyUpper nal) "SABAH" || hasSub (pyUpper nal) "SARAWAK" then [nal]
    else colonNoCont lines (k + 1) fuel

/-- The three address rules of one loop iteration (source order): labelled
"Business Address" collector, `": NO."` heuristic, "Registered Address"
fallback. -/
def addrRule1 (lines : List String) (i : Nat) (ci : CompanyInfo) : CompanyInfo :=
  let line := pyStrip (lines.getD i "")
  if hasSub line "Business Address" then
    let als := collectBiz lines (i + 1) lines.length
    if !als.isEmpty then
      let clean := als.takeWhile (fun l => !naturePhrase l)
      if !clean.isEmpty then { ci with business_address := some (joinSep " " clean) }
      else ci
    else ci
  else ci

/-- The `": NO."` address heuristic, guarded by the field being unset. -/
def addrRule2 (lines : List String) (i : Nat) (ci : CompanyInfo) : CompanyInfo :=
  let line := pyStrip (lines.getD i "")
  if optFalsy ci.business_address && pyStartsWith ": NO." line &&
     (hasSub (pyUpper line) "JALAN" || hasSub (pyUpper line) "ROAD" ||
      hasSub (pyUpper line) "STREET" || hasSub (pyUpper line) "AVENUE") then
    let parts := (pyStrip (String.mk (line.toList.drop 2))) ::
      colonNoCont lines (i + 1) (min (i + 5) lines.length - (i + 1))
    { ci with business_address := some (joinSep " " parts) }
  else ci

/-- The "Registered Address" collector; its guard on the field being unset
sits after the collection. -/
def addrRule3 (lines : List String) (i : Nat) (ci : CompanyInfo) : CompanyInfo :=
  let line := pyStrip (lines.getD i "")
  if hasSub line "Registered Address" then
    let als := collectReg lines (i + 1) lines.length
    if !als.isEmpty && optFalsy ci.business_address then
      { ci with business_address := some (joinSep " " als) }
    else ci
  else ci

/-- The three address rules of one loop iteration, in source order. -/
def addrStep (lines : List String) (i : Nat) (ci : CompanyInfo) : CompanyInfo :=
  addrRule3 lines i (addrRule2 lines i (addrRule1 lines i ci))

/-- One iteration of the `for i, line in enumerate(lines)` loop of
`_extract_company_info` (the rules touch disjoint fields and appear in the
source in this order). -/
def companyStep (lines : List String) (i : Nat) (ci : CompanyInfo) : CompanyInfo :=
  addrStep lines i (dateStep lines i (regStep lines i (nameStep lines i ci)))

/-- The loop of `_extract_company_info` run over the first `n` lines. -/
def companyLoopUpTo (lines : List String) (n : Nat) : CompanyInfo :=
  (List.range n).foldl (fun ci i => companyStep lines i ci) initCompany

/-- The full loop of `_extract_company_info`. -/
def extractCompanyLoop (lines : List String) : CompanyInfo :=
  companyLoopUpTo lines lines.length

/-- `not addr or 'NIL' in addr or addr == 'Office No'` — the guard on the
post-loop fallback block. -/
def addrFalsyOrBad (a : Option String) : Bool :=
  match a with
  | none => true
  | some s => s == "" || hasSub s "NIL" || s == "Office No"

/-- `_extract_company_info(text_content)`.  The phone-extraction block sits
after the loop in the source (inside the address-fallback `if`), so it sees
only the final values of the loop variables `i` and `line`: `i` is the last
index, making the `range(i+1, min(i+4, len(lines)))` scan of the
"Business Phone" branch empty, and `line` is the stripped last line. -/
def extractCompanyInfo (lines : List String) : CompanyInfo :=
  let ci := extractCompanyLoop lines
  if addrFalsyOrBad ci.business_address then
    let ci1 := { ci with business_address := extractMultiLineAddress lines }
    let lastLine := pyStrip (lines.getLast?.getD "")
    if hasSub lastLine "Business Phone" then ci1
    else if hasSub lastLine "+60" && groupedPhoneSearch lastLine then
      match plusSixtyExtract lastLine with
      | some p => { ci1 with business_phone := some p }
      | none => ci1
    else if !((pyStrip lastLine) == "") && (pyStrip lastLine).toList.all Char.isDigit &&
            decide (8 ≤ (pyStrip lastLine).length) then
      match phoneRunSearch lastLine with
      | some p => { ci1 with business_phone := some p }
      | none => ci1
    else ci1
  else ci

/-! ### `_extract_director_info` -/

/-- One director entry, as the source's dict. -/
structure Director where
  name : String
  id_type : String
  id_number : Option String
  email : Option String
deriving Repr, DecidableEq, Inhabited

/-- The deduplication key `(name, id_number)`. -/
def dirKey (d : Director) : String × Option String := (d.name, d.id_number)

/-- The markers that end a director window in the bounded look-ahead. -/
def memberLodgerMarker (l : String) : Bool :=
  hasSub l "PARTICULARS OF MEMBER" || hasSub l "LODGER" ||
  hasSub l "PARTICULARS OF LODGER" || hasSub l "PART C"

/-- `section_end`: the first member/lodger/"PART C" marker in
`range(section_start+1, min(len(lines), section_start+50))`, defaulting to
`section_start + 31`. -/
def sectionEnd (lines : List String) (s : Nat) : Nat :=
  match findFirst (fun k => memberLodgerMarker (lines.getD k ""))
      (s + 1) (min lines.length (s + 50) - (s + 1)) with
  | some k => k
  | none => s + 31

/-- Lodger indicators of the per-line backward/forward re-check. -/
def lodgerish (l : String) : Bool :=
  hasSub l "LODGER" || hasSub l "PARTICULARS OF LODGER" || hasSub l "Lodger Information"

/-- The lodger re-check: backward window `range(max(0, i-10), i)` and
forward window `range(i, min(i+5, len(lines)))`. -/
def lodgerWindow (lines : List String) (i : Nat) : Bool :=
  ((List.range' (i - min i 10) (min i 10)).any (fun k => lodgerish (lines.getD k ""))) ||
  ((List.range' i (min (i + 5) lines.length - i)).any (fun k => lodgerish (lines.getD k "")))

/-- Certification/secretary stamp markers, checked on upper-cased text. -/
def certifiedish (u : String) : Bool :=
  hasSub u "CERTIFIED TRUE COPY" || hasSub u "CERTIFIED COPY" ||
  hasSub u "CERTIFI ED COPY" || hasSub u "COMPANY SECRETARY" || hasSub u "COMPAN SECRETARY"

/-- The stamp re-check over `range(max(0, i-5), i)`. -/
def certifiedWindow (lines : List String) (i : Nat) : Bool :=
  (List.range' (i - min i 5) (min i 5)).any (fun k => certifiedish (pyUpper (lines.getD k "")))

/-- `excluded_keywords` of the name heuristic. -/
def excludedKeywords : List String :=
  ["OTHER RACE", "NATIONALITY", "DESIGNATION", "PARTICULARS",
   "DIRECTOR", "MEMBER", "NAME", "NRIC", "PASSPORT", "EMAIL",
   "COMPANY REGISTRATION", "REGISTRATION", "CHINESE", "MALAY", "INDIAN",
   "CERTIFI ED COPY", "CERTIFIED COPY", "COMPAN SECRETARY",
   "COMPANY SECRETARY", "COPY", "SECRETARY", "LODGER", "PARTICULARS OF LODGER"]

/-- The candidate-name test: a patronymic token, or an all-uppercase
multi-word line with no digits and no excluded keyword. -/
def nameLike (line : String) : Bool :=
  hasSub line "A/L" || hasSub line "A/P" || hasSub line "BIN" ||
  (upperNameMatch line && decide (2 ≤ (pySplit line).length) &&
   !(line.toList.any Char.isDigit) && !(excludedKeywords.any (fun k => hasSub line k)))

/-- `^\d{12}$` or `^\d{6}-\d{2}-\d{4}$` on a stripped line. -/
def idish (t : String) : Bool :=
  all12Digits t ||
  (match pySplitOnCh '-' t with
   | [a, b, c] =>
     a.length == 6 && a.toList.all Char.isDigit &&
     b.length == 2 && b.toList.all Char.isDigit &&
     c.length == 4 && c.toList.all Char.isDigit
   | _ => false)

/-- The email test of the director scan: `'@' in l` and a known TLD. -/
def emailish (l : String) : Bool :=
  hasSub l "@" && (hasSub l ".com" || hasSub l ".io" || hasSub l ".my")

/-- Forward ID scan `range(i+1, min(i+15, section_end))`, first match wins. -/
def findIdNum (lines : List String) (e i : Nat) : Option String :=
  (findFirst (fun j => idish (pyStrip (lines.getD j ""))) (i + 1) (min (i + 15) e - (i + 1))).map
    (fun j => pyStrip (lines.getD j ""))

/-- Forward email scan over the same window, then the backward window
`range(max(section_start, i-8), i)` if nothing was found. -/
def findEmailNear (lines : List String) (s e i : Nat) : Option String :=
  match (findFirst (fun j => emailish (pyStrip (lines.getD j "")))
      (i + 1) (min (i + 15) e - (i + 1))).map (fun j => pyStrip (lines.getD j "")) with
  | some v => some v
  | none =>
    (findFirst (fun j => emailish (pyStrip (lines.getD j "")))
        (max s (i - 8)) (i - max s (i - 8))).map (fun j => pyStrip (lines.getD j ""))

/-- The per-line body of the director-section scan: windows re-checks, name
test, ID/email proximity search.  The body never reads the accumulated
director list, so the scan is a `filterMap`. -/
def candidateAt (lines : List String) (s e i : Nat) : Option Director :=
  let line := pyStrip (lines.getD i "")
  if lodgerWindow lines i then none
  else if certifiedWindow lines i then none
  else if nameLike line then
    let d : Director := ⟨line, "NRIC", findIdNum lines e i, findEmailNear lines s e i⟩
    if !(d.name == "") then some d else none
  else none

/-- The scan of one director section `range(section_start+1,
min(section_end, len(lines)))`. -/
def scanSection (lines : List String) (s : Nat) : List Director :=
  let e := sectionEnd lines s
  (List.range' (s + 1) (min e lines.length - (s + 1))).filterMap (candidateAt lines s e)

/-- The indices of lines containing the director-section marker. -/
def directorStarts (lines : List String) : List Nat :=
  (List.range lines.length).filter (fun i => hasSub (lines.getD i "") "PARTICULARS OF DIRECTOR")

/-- All directors found before deduplication. -/
def rawDirectors (lines : List String) : List Director :=
  (directorStarts lines).flatMap (fun s => scanSection lines s)

/-- The seen-set deduplication by `(name, id_number)`. -/
def dedupGo (seen : List (String × Option String)) : List Director → List Director
  | [] => []
  | d :: ds =>
    if dirKey d ∈ seen then dedupGo seen ds
    else d :: dedupGo (dirKey d :: seen) ds

/-- `unique_directors` of the source. -/
def dedupDirectors (ds : List Director) : List Director := dedupGo [] ds

/-! #### The email-repair pass -/

/-- `all_emails`: every line with `@` and a known TLD, stripped. -/
def allEmails (lines : List String) : List String :=
  (lines.filter emailish).map pyStrip

/-- Python-dict value list of the `director_emails` association list. -/
def mapValues (m : List (String × String)) : List String := m.map Prod.snd

/-- Python-dict assignment `m[k] = v` on an association list. -/
def upsert (m : List (String × String)) (k v : String) : List (String × String) :=
  if m.any (fun p => p.1 == k) then m.map (fun p => if p.1 == k then (k, v) else p)
  else m ++ [(k, v)]

/-- The backward section check `for k in range(i, max(0, i-20), -1)`:
director marker first → inside, member/lodger marker first → outside,
nothing → outside.  (The stop index `max(0, i-20)` is excluded, so line 0 is
never examined when `i ≤ 20`.) -/
def backScan (lines : List String) : Nat → Nat → Bool
  | _, 0 => false
  | k, c + 1 =>
    if hasSub (lines.getD k "") "PARTICULARS OF DIRECTOR" then true
    else if hasSub (lines.getD k "") "PARTICULARS OF MEMBER" ||
            hasSub (lines.getD k "") "LODGER" ||
            hasSub (lines.getD k "") "PARTICULARS OF LODGER" then false
    else backScan lines (k - 1) c

/-- `is_in_director_section` for a name occurrence at line `i`. -/
def backSectionCheck (lines : List String) (i : Nat) : Bool :=
  backScan lines i (min i 20)

/-- The first repair sub-pass, one director: find the first line containing
the name, check the backward section window there, then search
`range(i+1, min(len(lines), i+16))` and (if the name is still unmapped)
`range(max(0, i-5), i)` for an email not yet among the map's values. -/
def pass1ForDirector (lines : List String) (m : List (String × String)) (d : Director) :
    List (String × String) :=
  if !optFalsy d.email then m
  else
    match findFirst (fun i => hasSub (lines.getD i "") d.name) 0 lines.length with
    | none => m
    | some i =>
      if backSectionCheck lines i then
        match findFirst
            (fun j => emailish (lines.getD j "") &&
              !((mapValues m).contains (pyStrip (lines.getD j ""))))
            (i + 1) (min lines.length (i + 16) - (i + 1)) with
        | some j => upsert m d.name (pyStrip (lines.getD j ""))
        | none =>
          if m.any (fun p => p.1 == d.name) then m
          else
            match findFirst
                (fun j => emailish (lines.getD j "") &&
                  !((mapValues m).contains (pyStrip (lines.getD j ""))))
                (i - min i 5) (min i 5) with
            | some j => upsert m d.name (pyStrip (lines.getD j ""))
            | none => m
      else m

/-- The `director_emails` map built by the first repair sub-pass. -/
def pass1Build (lines : List String) (ds : List Director) (m : List (String × String)) :
    List (String × String) :=
  ds.foldl (pass1ForDirector lines) m

/-- Applying the map: each director still without an email whose name is a
key receives the mapped email. -/
def applyPass1 (m : List (String × String)) (ds : List Director) : List Director :=
  ds.map (fun d =>
    if optFalsy d.email && m.any (fun p => p.1 == d.name) then
      { d with email := ((m.find? (fun p => p.1 == d.name)).map Prod.snd).getD "" |> some }
    else d)

/-- The member/lodger markers of the second sub-pass's forward "still in
director section" probe. -/
def memberLodgerMarker2 (l : String) : Bool :=
  hasSub l "PARTICULARS OF MEMBER" || hasSub l "LODGER" || hasSub l "PARTICULARS OF LODGER"

/-- `still_in_director_section`: no marker in `range(j, min(len(lines), j+10))`. -/
def stillInDirector (lines : List String) (j : Nat) : Bool :=
  (findFirst (fun t => memberLodgerMarker2 (lines.getD t "")) j (min lines.length (j + 10) - j)).isNone

/-- The second sub-pass's email hunt over `range(max(0, i-5), min(len(lines),
i+15))`: at the first qualifying line, the first pool email that is a
substring of that line. -/
def pass2FindEmail (lines : List String) (rem : List String) (a count : Nat) : Option String :=
  (List.range' a count).findSome? (fun j =>
    if stillInDirector lines j then rem.find? (fun e => hasSub (lines.getD j "") e)
    else none)

/-- The second repair sub-pass, one director, threading the shared pool. -/
def pass2Step (lines : List String) (d : Director) (rem : List String) :
    Director × List String :=
  if optFalsy d.email && !rem.isEmpty then
    match findFirst (fun i => hasSub (lines.getD i "") d.name) 0 lines.length with
    | none => (d, rem)
    | some i =>
      if backSectionCheck lines i then
        match pass2FindEmail lines rem (i - min i 5) (min lines.length (i + 15) - (i - min i 5)) with
        | some e => ({ d with email := some e }, rem.erase e)
        | none => (d, rem)
      else (d, rem)
  else (d, rem)

/-- The second repair sub-pass over all directors. -/
def pass2Run (lines : List String) : List Director → List String → List Director
  | [], _ => []
  | d :: ds, rem =>
    let r := pass2Step lines d rem
    r.1 :: pass2Run lines ds r.2

/-- The whole email-repair post-processing of `_extract_director_info`. -/
def emailRepair (lines : List String) (ds : List Director) : List Director :=
  let m := pass1Build lines ds []
  let ds2 := applyPass1 m ds
  let rem := (allEmails lines).filter (fun e => !((mapValues m).contains e))
  pass2Run lines ds2 rem

/-- `_extract_director_info(text_content)` over the line list. -/
def extractDirectorInfo (lines : List String) : List Director :=
  emailRepair lines (dedupDirectors (rawDirectors lines))

/-! ### `_extract_key_information` over the block graph -/

/-- One relationship entry (`{'Type': ..., 'Ids': [...]}`). -/
structure Relation where
  relType : String
  ids : List String
deriving Repr, DecidableEq

/-- One OCR block.  `text` models the optional `Text` payload
(`block.get('Text', '')` reads `""` when absent); a missing
`Relationships`/`EntityTypes` list is the empty list. -/
structure Block where
  id : String
  blockType : String
  text : Option String
  entityTypes : List String
  relationships : List Relation
deriving Repr, DecidableEq

/-- The output aggregate (`extracted_data`). -/
structure ExtractionRecord where
  company_name : Option String
  registration_number : Option String
  incorporation_date : Option String
  company_type : Option String
  business_address : Option String
  business_phone : Option String
  directors : List Director
deriving Repr, DecidableEq

/-- Python-dict assignment for the three block maps. -/
def bUpsert (m : List (String × Block)) (k : String) (b : Block) : List (String × Block) :=
  if m.any (fun p => p.1 == k) then m.map (fun p => if p.1 == k then (k, b) else p)
  else m ++ [(k, b)]

/-- The `(block_map, key_map, value_map)` construction loop. -/
def buildMaps (blocks : List Block) :
    List (String × Block) × List (String × Block) × List (String × Block) :=
  blocks.foldl
    (fun maps b =>
      let bm := bUpsert maps.1 b.id b
      if b.blockType == "KEY_VALUE_SET" then
        if b.entityTypes.contains "KEY" then (bm, bUpsert maps.2.1 b.id b, maps.2.2)
        else (bm, maps.2.1, bUpsert maps.2.2 b.id b)
      else (bm, maps.2.1, maps.2.2))
    ([], [], [])

/-- Dict lookup on an association list. -/
def lookupB (m : List (String × Block)) (k : String) : Option Block :=
  (m.find? (fun p => p.1 == k)).map Prod.snd

/-- `_get_text_from_blocks(block_ids, block_map)`: space-joined `WORD`
texts, stripped. -/
def getTextFromBlocks (ids : List String) (blockMap : List (String × Block)) : String :=
  (ids.foldl
    (fun acc bid =>
      match lookupB blockMap bid with
      | some b => if b.blockType == "WORD" then acc ++ (b.text.getD "") ++ " " else acc
      | none => acc)
    "" |> pyStrip)

/-- The key/value fallback field update (an `if`/`elif` chain guarded by
Python truthiness of the current values). -/
def kvUpdate (keyText valueText : String) (r : ExtractionRecord) : ExtractionRecord :=
  let kl := pyLower keyText
  if hasSub kl "proposed name" && optFalsy r.company_name then
    { r with company_name := some valueText }
  else if hasSub kl "incorporation date" && optFalsy r.incorporation_date then
    { r with incorporation_date := some valueText }
  else if hasSub kl "business address" && optFalsy r.business_address then
    { r with business_address := some valueText }
  else r

/-- The nested key/value traversal of `_extract_key_information`: for every
key block (in insertion order), for every `CHILD` relationship (giving the
key text), for every `VALUE` relationship, for every value id resolving in
`value_map`, for every `CHILD` relationship of the value block, apply the
field update with the value text. -/
def kvFallback (blocks : List Block) (r0 : ExtractionRecord) : ExtractionRecord :=
  let maps := buildMaps blocks
  let blockMap := maps.1
  let keyMap := maps.2.1
  let valueMap := maps.2.2
  keyMap.foldl
    (fun r kv =>
      let kb := kv.2
      kb.relationships.foldl
        (fun r rel =>
          if rel.relType == "CHILD" then
            let keyText := getTextFromBlocks rel.ids blockMap
            kb.relationships.foldl
              (fun r rel2 =>
                if rel2.relType == "VALUE" then
                  rel2.ids.foldl
                    (fun r vid =>
                      match lookupB valueMap vid with
                      | some vb =>
                        vb.relationships.foldl
                          (fun r vrel =>
                            if vrel.relType == "CHILD" then
                              kvUpdate keyText (getTextFromBlocks vrel.ids blockMap) r
                            else r)
                          r
                      | none => r)
                    r
                else r)
              r
          else r)
        r)
    r0

/-- `_extract_all_text(blocks)`: newline-joined texts of `LINE` blocks. -/
def extractAllText (blocks : List Block) : String :=
  joinSep "\n" ((blocks.filter (fun b => b.blockType == "LINE")).map
    (fun b => b.text.getD ""))

/-- `_extract_key_information(textract_response)` given the block list:
pattern extraction over the linearized lines, then the key/value fallback. -/
def extractKeyInformation (blocks : List Block) : ExtractionRecord :=
  let lines := pySplitOnCh '\n' (extractAllText blocks)
  let ci := extractCompanyInfo lines
  let r0 : ExtractionRecord :=
    ⟨ci.company_name, ci.registration_number, ci.incorporation_date,
     ci.company_type, ci.business_address, ci.business_phone,
     extractDirectorInfo lines⟩
  kvFallback blocks r0

/-! ### Concrete documents used by the scenario theorems, witnesses and
counterexamples -/

/-- Scenario C of the specification (§8). -/
def scenCLines : List String :=
  ["PARTICULARS OF DIRECTOR", "TAN WEI MING", "850315025639", "tan@company.com",
   "PARTICULARS OF MEMBER", "LIM SOOK YEE", "900101016999", "lim@members.com"]

/-- Scenario E of the specification (§8). -/
def scenELines : List String :=
  ["Business Address", "NO. 12, JALAN AMPANG", "50450 KUALA LUMPUR",
   "Business Phone", "0312345678"]

/-- A document whose "Proposed name" label occurs twice. -/
def twoProposedLines : List String :=
  ["Proposed name", "ALPHA TRADING SDN. BHD.", "Proposed name", "BETA LOGISTICS SDN. BHD."]

/-- A director section holding two candidate names followed by one email. -/
def twoDirOneEmailLines : List String :=
  ["PARTICULARS OF DIRECTOR", "ALICE TAN LEE", "BOB LIM WONG", "alice@test.com",
   "PARTICULARS OF MEMBER"]

/-- A director without an email whose repair-pass window reaches past the
member marker into the member's email line. -/
def memberEmailLines : List String :=
  ["Company No. 123", "PARTICULARS OF DIRECTOR", "TAN AH KOW", "850315025639",
   "PARTICULARS OF MEMBER", "LIM SOOK YEE", "lim@members.com"]

/-- The member-email document's director as it stands before the repair
pass (no email found by the primary scan). -/
def tanNoEmail : Director := ⟨"TAN AH KOW", "NRIC", some "850315025639", none⟩

/-- The single director extracted from Scenario C. -/
def tanDirector : Director :=
  ⟨"TAN WEI MING", "NRIC", some "850315025639", some "tan@company.com"⟩

/-- At most one director per email string (the property claim C2 asserts of
every output). -/
def noSharedEmail (ds : List Director) : Prop :=
  (ds.filterMap (fun d => d.email)).Nodup

instance noSharedEmailDec (ds : List Director) : Decidable (noSharedEmail ds) :=
  List.nodupDecidable _

/-! ### Helper lemmas -/

theorem findFirst_some {p : Nat → Bool} :
    ∀ {n a k}, findFirst p a n = some k →
      p k = true ∧ a ≤ k ∧ k < a + n ∧ ∀ j, a ≤ j → j < k → p j = false := by
  intro n
  induction n with
  | zero => intro a k h; simp [findFirst] at h
  | succ n ih =>
    intro a k h
    rw [findFirst] at h
    cases hpa : p a with
    | true =>
      rw [hpa] at h
      simp at h
      subst h
      exact ⟨hpa, Nat.le_refl _, by omega, fun j h1 h2 => by omega⟩
    | false =>
      rw [hpa] at h
      simp at h
      obtain ⟨h1, h2, h3, h4⟩ := ih h
      refine ⟨h1, by omega, by omega, ?_⟩
      intro j hj1 hj2
      rcases Nat.eq_or_lt_of_le hj1 with heq | hlt
      · subst heq; exact hpa
      · exact h4 j hlt hj2

theorem findFirst_none {p : Nat → Bool} :
    ∀ {n a}, findFirst p a n = none → ∀ j, a ≤ j → j < a + n → p j = false := by
  intro n
  induction n with
  | zero => intro a _ j h1 h2; omega
  | succ n ih =>
    intro a h j h1 h2
    rw [findFirst] at h
    cases hpa : p a with
    | true => rw [hpa] at h; simp at h
    | false =>
      rw [hpa] at h
      simp at h
      rcases Nat.eq_or_lt_of_le h1 with heq | hlt
      · subst heq; exact hpa
      · exact ih h j hlt (by omega)

theorem foldl_inv {α β : Type} (P : β → Prop) (f : β → α → β)
    (h : ∀ b a, P b → P (f b a)) : ∀ (l : List α) (b : β), P b → P (l.foldl f b) := by
  intro l
  induction l with
  | nil => intro b hb; exact hb
  | cons x xs ih => intro b hb; exact ih _ (h _ _ hb)

/-! ### Which fields each company rule writes -/

theorem nameRule1_other (lines : List String) (i : Nat) (ci : CompanyInfo) :
    (nameRule1 lines i ci).registration_number = ci.registration_number ∧
    (nameRule1 lines i ci).incorporation_date = ci.incorporation_date ∧
    (nameRule1 lines i ci).business_address = ci.business_address ∧
    (nameRule1 lines i ci).business_phone = ci.business_phone := by
  unfold nameRule1
  dsimp only
  split_ifs <;> simp

theorem nameRule2_other (lines : List String) (i : Nat) (ci : CompanyInfo) :
    (nameRule2 lines i ci).registration_number = ci.registration_number ∧
    (nameRule2 lines i ci).incorporation_date = ci.incorporation_date ∧
    (nameRule2 lines i ci).business_address = ci.business_address ∧
    (nameRule2 lines i ci).business_phone = ci.business_phone := by
  unfold nameRule2
  dsimp only
  split_ifs <;> simp

theorem nameRule3_other (lines : List String) (i : Nat) (ci : CompanyInfo) :
    (nameRule3 lines i ci).registration_number = ci.registration_number ∧
    (nameRule3 lines i ci).incorporation_date = ci.incorporation_date ∧
    (nameRule3 lines i ci).business_address = ci.business_address ∧
    (nameRule3 lines i ci).business_phone = ci.business_phone := by
  unfold nameRule3
  dsimp only
  split_ifs with h
  · split <;> first
      | simp
      | (split_ifs <;> simp)
  · simp

theorem nameStep_other (lines : List String) (i : Nat) (ci : CompanyInfo) :
    (nameStep lines i ci).registration_number = ci.registration_number ∧
    (nameStep lines i ci).incorporation_date = ci.incorporation_date ∧
    (nameStep lines i ci).business_address = ci.business_address ∧
    (nameStep lines i ci).business_phone = ci.business_phone := by
  unfold nameStep
  obtain ⟨a1, b1, c1, d1⟩ := nameRule1_other lines i ci
  obtain ⟨a2, b2, c2, d2⟩ := nameRule2_other lines i (nameRule1 lines i ci)
  obtain ⟨a3, b3, c3, d3⟩ := nameRule3_other lines i (nameRule2 lines i (nameRule1 lines i ci))
  exact ⟨by rw [a3, a2, a1], by rw [b3, b2, b1], by rw [c3, c2, c1], by rw [d3, d2, d1]⟩

theorem nameRule1_type (lines : List String) (i : Nat) (ci : CompanyInfo) :
    (nameRule1 lines i ci).company_type = ci.company_type ∨
    (nameRule1 lines i ci).company_type = some "SDN. BHD." := by
  unfold nameRule1
  dsimp only
  split_ifs <;> simp

theorem nameRule2_type (lines : List String) (i : Nat) (ci : CompanyInfo) :
    (nameRule2 lines i ci).company_type = ci.company_type ∨
    (nameRule2 lines i ci).company_type = some "SDN. BHD." := by
  unfold nameRule2
  dsimp only
  split_ifs <;> simp

theorem nameRule3_type (lines : List String) (i : Nat) (ci : CompanyInfo) :
    (nameRule3 lines i ci).company_type = ci.company_type ∨
    (nameRule3 lines i ci).company_type = some "SDN. BHD." := by
  unfold nameRule3
  dsimp only
  split_ifs with h
  · split <;> first
      | simp
      | (split_ifs <;> simp)
  · simp

theorem nameStep_type (lines : List String) (i : Nat) (ci : CompanyInfo) :
    (nameStep lines i ci).company_type = ci.company_type ∨
    (nameStep lines i ci).company_type = some "SDN. BHD." := by
  unfold nameStep
  rcases nameRule3_type lines i (nameRule2 lines i (nameRule1 lines i ci)) with h3 | h3
  · rw [h3]
    rcases nameRule2_type lines i (nameRule1 lines i ci) with h2 | h2
    · rw [h2]
      exact nameRule1_type lines i ci
    · right; exact h2
  · right; exact h3

theorem nameRule2_guard (lines : List String) (i : Nat) (ci : CompanyInfo) :
    nameRule2 lines i ci = ci ∨ optFalsy ci.company_name = true := by
  unfold nameRule2
  dsimp only
  split_ifs with h <;> first
    | (right; simp only [Bool.and_eq_true] at h; exact h.1.1.1)
    | (left; rfl)

theorem nameRule3_guard (lines : List String) (i : Nat) (ci : CompanyInfo) :
    nameRule3 lines i ci = ci ∨ optFalsy ci.company_name = true := by
  unfold nameRule3
  dsimp only
  split_ifs with h
  · split <;> first
      | (left; rfl)
      | (split_ifs <;> right <;> simp only [Bool.and_eq_true] at h <;> exact h.1)
  · left; rfl

theorem nameRule1_guard (lines : List String) (i : Nat) (ci : CompanyInfo) :
    nameRule1 lines i ci = ci ∨
    (hasSub (pyStrip (lines.getD i "")) "Proposed name" &&
      decide (i + 1 < lines.length)) = true := by
  unfold nameRule1
  dsimp only
  split_ifs with h <;> first
    | (right; exact h)
    | (left; rfl)

theorem nameStep_name (lines : List String) (i : Nat) (ci : CompanyInfo) :
    (nameStep lines i ci).company_name = ci.company_name ∨
    optFalsy ci.company_name = true ∨
    (hasSub (pyStrip (lines.getD i "")) "Proposed name" &&
      decide (i + 1 < lines.length)) = true := by
  unfold nameStep
  rcases nameRule1_guard lines i ci with h1 | h1
  · rw [h1]
    rcases nameRule2_guard lines i ci with h2 | h2
    · rw [h2]
      rcases nameRule3_guard lines i ci with h3 | h3
      · rw [h3]; left; rfl
      · right; left; exact h3
    · right; left; exact h2
  · right; right; exact h1

theorem regStep_other (lines : List String) (i : Nat) (ci : CompanyInfo) :
    (regStep lines i ci).company_name = ci.company_name ∧
    (regStep lines i ci).company_type = ci.company_type ∧
    (regStep lines i ci).incorporation_date = ci.incorporation_date ∧
    (regStep lines i ci).business_address = ci.business_address ∧
    (regStep lines i ci).business_phone = ci.business_phone := by
  unfold regStep
  dsimp only
  rcases hg1 : reg12BracketGroup (pyStrip (lines.getD i "")) with _ | g1 <;>
    rcases hg2 : fmt4Group (pyStrip (lines.getD i "")) with _ | g2 <;>
      simp only [hg1, hg2] <;> split_ifs <;> simp

theorem regStep_reg (lines : List String) (i : Nat) (ci : CompanyInfo) :
    (regStep lines i ci).registration_number = ci.registration_number ∨
    optFalsy ci.registration_number = true ∨
    (reg12BracketMatch (pyStrip (lines.getD i "")) ||
      reg12BracketSearch (pyStrip (lines.getD i ""))) = true := by
  unfold regStep
  dsimp only
  rcases hg1 : reg12BracketGroup (pyStrip (lines.getD i "")) with _ | g1 <;>
    rcases hg2 : fmt4Group (pyStrip (lines.getD i "")) with _ | g2 <;>
      simp only [hg1, hg2] <;> split_ifs <;>
        first
          | (right; right; simp_all; done)
          | (right; left; simp_all; done)
          | (left; rfl)

theorem dateRule1_other (lines : List String) (i : Nat) (ci : CompanyInfo) :
    (dateRule1 lines i ci).company_name = ci.company_name ∧
    (dateRule1 lines i ci).company_type = ci.company_type ∧
    (dateRule1 lines i ci).registration_number = ci.registration_number ∧
    (dateRule1 lines i ci).business_address = ci.business_address ∧
    (dateRule1 lines i ci).business_phone = ci.business_phone := by
  unfold dateRule1
  dsimp only
  split_ifs <;> simp

theorem dateRule2_other (lines : List String) (i : Nat) (ci : CompanyInfo) :
    (dateRule2 lines i ci).company_name = ci.company_name ∧
    (dateRule2 lines i ci).company_type = ci.company_type ∧
    (dateRule2 lines i ci).registration_number = ci.registration_number ∧
    (dateRule2 lines i ci).business_address = ci.business_address ∧
    (dateRule2 lines i ci).business_phone = ci.business_phone := by
  unfold dateRule2
  dsimp only
  split_ifs <;> simp

theorem dateStep_other (lines : List String) (i : Nat) (ci : CompanyInfo) :
    (dateStep lines i ci).company_name = ci.company_name ∧
    (dateStep lines i ci).company_type = ci.company_type ∧
    (dateStep lines i ci).registration_number = ci.registration_number ∧
    (dateStep lines i ci).business_address = ci.business_address ∧
    (dateStep lines i ci).business_phone = ci.business_phone := by
  unfold dateStep
  obtain ⟨a1, b1, c1, d1, e1⟩ := dateRule1_other lines i ci
  obtain ⟨a2, b2, c2, d2, e2⟩ := dateRule2_other lines i (dateRule1 lines i ci)
  exact ⟨by rw [a2, a1], by rw [b2, b1], by rw [c2, c1], by rw [d2, d1], by rw [e2, e1]⟩

theorem dateRule2_guard (lines : List String) (i : Nat) (ci : CompanyInfo) :
    dateRule2 lines i ci = ci ∨ optFalsy ci.incorporation_date = true := by
  unfold dateRule2
  dsimp only
  split_ifs with h <;> first
    | (right; simp only [Bool.and_eq_true] at h; exact h.1)
    | (left; rfl)

theorem dateRule1_guard (lines : List String) (i : Nat) (ci : CompanyInfo) :
    dateRule1 lines i ci = ci ∨
    (hasSub (pyStrip (lines.getD i "")) "Incorporation Date" &&
      decide (i + 1 < lines.length)) = true := by
  unfold dateRule1
  dsimp only
  split_ifs with h <;> first
    | (right; exact h)
    | (left; rfl)

theorem dateStep_date (lines : List String) (i : Nat) (ci : CompanyInfo) :
    (dateStep lines i ci).incorporation_date = ci.incorporation_date ∨
    optFalsy ci.incorporation_date = true ∨
    (hasSub (pyStrip (lines.getD i "")) "Incorporation Date" &&
      decide (i + 1 < lines.length)) = true := by
  unfold dateStep
  rcases dateRule1_guard lines i ci with h1 | h1
  · rw [h1]
    rcases dateRule2_guard lines i ci with h2 | h2
    · rw [h2]; left; rfl
    · right; left; exact h2
  · right; right; exact h1

theorem addrRule1_other (lines : List String) (i : Nat) (ci : CompanyInfo) :
    (addrRule1 lines i ci).company_name = ci.company_name ∧
    (addrRule1 lines i ci).company_type = ci.company_type ∧
    (addrRule1 lines i ci).registration_number = ci.registration_number ∧
    (addrRule1 lines i ci).incorporation_date = ci.incorporation_date ∧
    (addrRule1 lines i ci).business_phone = ci.business_phone := by
  unfold addrRule1
  dsimp only
  split_ifs <;> simp

theorem addrRule2_other (lines : List String) (i : Nat) (ci : CompanyInfo) :
    (addrRule2 lines i ci).company_name = ci.company_name ∧
    (addrRule2 lines i ci).company_type = ci.company_type ∧
    (addrRule2 lines i ci).registration_number = ci.registration_number ∧
    (addrRule2 lines i ci).incorporation_date = ci.incorporation_date ∧
    (addrRule2 lines i ci).business_phone = ci.business_phone := by
  unfold addrRule2
  dsimp only
  split_ifs <;> simp

theorem addrRule3_other (lines : List String) (i : Nat) (ci : CompanyInfo) :
    (addrRule3 lines i ci).company_name = ci.company_name ∧
    (addrRule3 lines i ci).company_type = ci.company_type ∧
    (addrRule3 lines i ci).registration_number = ci.registration_number ∧
    (addrRule3 lines i ci).incorporation_date = ci.incorporation_date ∧
    (addrRule3 lines i ci).business_phone = ci.business_phone := by
  unfold addrRule3
  dsimp only
  split_ifs <;> simp

theorem addrStep_other (lines : List String) (i : Nat) (ci : CompanyInfo) :
    (addrStep lines i ci).company_name = ci.company_name ∧
    (addrStep lines i ci).company_type = ci.company_type ∧
    (addrStep lines i ci).registration_number = ci.registration_number ∧
    (addrStep lines i ci).incorporation_date = ci.incorporation_date ∧
    (addrStep lines i ci).business_phone = ci.business_phone := by
  unfold addrStep
  obtain ⟨a1, b1, c1, d1, e1⟩ := addrRule1_other lines i ci
  obtain ⟨a2, b2, c2, d2, e2⟩ := addrRule2_other lines i (addrRule1 lines i ci)
  obtain ⟨a3, b3, c3, d3, e3⟩ :=
    addrRule3_other lines i (addrRule2 lines i (addrRule1 lines i ci))
  exact ⟨by rw [a3, a2, a1], by rw [b3, b2, b1], by rw [c3, c2, c1],
    by rw [d3, d2, d1], by rw [e3, e2, e1]⟩

theorem companyStep_type (lines : List String) (i : Nat) (ci : CompanyInfo) :
    (companyStep lines i ci).company_type = ci.company_type ∨
    (companyStep lines i ci).company_type = some "SDN. BHD." := by
  unfold companyStep
  rw [(addrStep_other lines i (dateStep lines i (regStep lines i (nameStep lines i ci)))).2.1,
      (dateStep_other lines i (regStep lines i (nameStep lines i ci))).2.1,
      (regStep_other lines i (nameStep lines i ci)).2.1]
  exact nameStep_type lines i ci

theorem companyStep_phone (lines : List String) (i : Nat) (ci : CompanyInfo) :
    (companyStep lines i ci).business_phone = ci.business_phone := by
  unfold companyStep
  rw [(addrStep_other lines i (dateStep lines i (regStep lines i (nameStep lines i ci)))).2.2.2.2,
      (dateStep_other lines i (regStep lines i (nameStep lines i ci))).2.2.2.2,
      (regStep_other lines i (nameStep lines i ci)).2.2.2.2,
      (nameStep_other lines i ci).2.2.2]

theorem companyLoop_type (lines : List String) (n : Nat) :
    (companyLoopUpTo lines n).company_type = none ∨
    (companyLoopUpTo lines n).company_type = some "SDN. BHD." := by
  unfold companyLoopUpTo
  refine foldl_inv (fun ci : CompanyInfo => ci.company_type = none ∨ ci.company_type = some "SDN. BHD.")
    (fun ci i => companyStep lines i ci) ?_ (List.range n) initCompany (Or.inl rfl)
  intro ci i hci
  rcases companyStep_type lines i ci with h | h
  · rw [h]; exact hci
  · right; exact h

theorem extractCompanyInfo_type (lines : List String) :
    (extractCompanyInfo lines).company_type = (extractCompanyLoop lines).company_type := by
  unfold extractCompanyInfo
  dsimp only
  rcases hp : plusSixtyExtract (pyStrip (lines.getLast?.getD "")) with _ | p <;>
    rcases hq : phoneRunSearch (pyStrip (lines.getLast?.getD "")) with _ | q <;>
      simp only [hp, hq] <;> split_ifs <;> rfl

theorem kvUpdate_type (kt vt : String) (r : ExtractionRecord) :
    (kvUpdate kt vt r).company_type = r.company_type := by
  unfold kvUpdate
  dsimp only
  split_ifs <;> rfl

theorem kvUpdate_directors (kt vt : String) (r : ExtractionRecord) :
    (kvUpdate kt vt r).directors = r.directors := by
  unfold kvUpdate
  dsimp only
  split_ifs <;> rfl

theorem kvFallback_type (blocks : List Block) (r0 : ExtractionRecord) :
    (kvFallback blocks r0).company_type = r0.company_type := by
  unfold kvFallback
  dsimp only
  refine foldl_inv (fun r : ExtractionRecord => r.company_type = r0.company_type) _ ?_ _ _ rfl
  intro r kv hr
  refine foldl_inv (fun r : ExtractionRecord => r.company_type = r0.company_type) _ ?_ _ _ hr
  intro r2 rel hr2
  split_ifs
  · refine foldl_inv (fun r : ExtractionRecord => r.company_type = r0.company_type) _ ?_ _ _ hr2
    intro r3 rel2 hr3
    split_ifs
    · refine foldl_inv (fun r : ExtractionRecord => r.company_type = r0.company_type) _ ?_ _ _ hr3
      intro r4 vid hr4
      rcases hb : lookupB (buildMaps blocks).2.2 vid with _ | vb <;> simp only [hb]
      · exact hr4
      · refine foldl_inv (fun r : ExtractionRecord => r.company_type = r0.company_type) _ ?_ _ _ hr4
        intro r5 vrel hr5
        split_ifs
        · rw [kvUpdate_type]; exact hr5
        · exact hr5
    · exact hr3
  · exact hr2

theorem kvFallback_directors (blocks : List Block) (r0 : ExtractionRecord) :
    (kvFallback blocks r0).directors = r0.directors := by
  unfold kvFallback
  dsimp only
  refine foldl_inv (fun r : ExtractionRecord => r.directors = r0.directors) _ ?_ _ _ rfl
  intro r kv hr
  refine foldl_inv (fun r : ExtractionRecord => r.directors = r0.directors) _ ?_ _ _ hr
  intro r2 rel hr2
  split_ifs
  · refine foldl_inv (fun r : ExtractionRecord => r.directors = r0.directors) _ ?_ _ _ hr2
    intro r3 rel2 hr3
    split_ifs
    · refine foldl_inv (fun r : ExtractionRecord => r.directors = r0.directors) _ ?_ _ _ hr3
      intro r4 vid hr4
      rcases hb : lookupB (buildMaps blocks).2.2 vid with _ | vb <;> simp only [hb]
      · exact hr4
      · refine foldl_inv (fun r : ExtractionRecord => r.directors = r0.directors) _ ?_ _ _ hr4
        intro r5 vrel hr5
        split_ifs
        · rw [kvUpdate_directors]; exact hr5
        · exact hr5
    · exact hr3
  · exact hr2

/-! ### Claim theorems -/

/-- C3 (code bug): on Scenario E the business address is extracted as the
two joined address lines (stopping before the phone label), but
`business_phone` comes out `None` — not `"0312345678"` as the spec states —
because the source's phone-extraction block sits outside the per-line loop
(it runs once, only when the address lookup failed, over the final values of
the loop variables). -/
theorem c3_phone_extraction_dead :
    (extractCompanyInfo scenELines).business_address =
      some "NO. 12, JALAN AMPANG 50450 KUALA LUMPUR" ∧
    (extractCompanyInfo scenELines).business_phone = none := ⟨rfl, rfl⟩

/-- C4 counterexample: with two "Proposed name" pairs in one document, the
name set from the first pair (visible after scanning the first two lines) is
overwritten by the second pair — the first matching rule does not win. -/
theorem c4_counterexample :
    (companyLoopUpTo twoProposedLines 2).company_name = some "ALPHA TRADING SDN. BHD." ∧
    (extractCompanyInfo twoProposedLines).company_name = some "BETA LOGISTICS SDN. BHD." ∧
    (((companyLoopUpTo twoProposedLines 2).company_name ==
        (extractCompanyInfo twoProposedLines).company_name) = false) :=
  ⟨rfl, rfl, rfl⟩

/-- C4 (amended): in each scan step, the guarded (fallback) rules never
change an already-set field: the company name changes only if it was unset
(Python-falsy) or the line fires the unguarded "Proposed name" primary rule;
the registration number changes only if unset or the line fires one of the
two unguarded 12-digit-plus-bracket formats; the incorporation date changes
only if unset or the line carries the unguarded date label; and the loop
never writes the phone field at all.  The unguarded primary rules overwrite
on every hit, so the last primary match wins, not the first. -/
theorem c4_amended_write_guards (lines : List String) (i : Nat) (ci : CompanyInfo) :
    ((companyStep lines i ci).company_name = ci.company_name ∨
      optFalsy ci.company_name = true ∨
      (hasSub (pyStrip (lines.getD i "")) "Proposed name" &&
        decide (i + 1 < lines.length)) = true) ∧
    ((companyStep lines i ci).registration_number = ci.registration_number ∨
      optFalsy ci.registration_number = true ∨
      (reg12BracketMatch (pyStrip (lines.getD i "")) ||
        reg12BracketSearch (pyStrip (lines.getD i ""))) = true) ∧
    ((companyStep lines i ci).incorporation_date = ci.incorporation_date ∨
      optFalsy ci.incorporation_date = true ∨
      (hasSub (pyStrip (lines.getD i "")) "Incorporation Date" &&
        decide (i + 1 < lines.length)) = true) ∧
    (companyStep lines i ci).business_phone = ci.business_phone := by
  refine ⟨?_, ?_, ?_, companyStep_phone lines i ci⟩
  · unfold companyStep
    rw [(addrStep_other lines i (dateStep lines i (regStep lines i (nameStep lines i ci)))).1,
        (dateStep_other lines i (regStep lines i (nameStep lines i ci))).1,
        (regStep_other lines i (nameStep lines i ci)).1]
    exact nameStep_name lines i ci
  · unfold companyStep
    rw [(addrStep_other lines i
          (dateStep lines i (regStep lines i (nameStep lines i ci)))).2.2.1,
        (dateStep_other lines i (regStep lines i (nameStep lines i ci))).2.2.1]
    have hn := (nameStep_other lines i ci).1
    rcases regStep_reg lines i (nameStep lines i ci) with h | h | h
    · left; rw [h, hn]
    · right; left; rw [hn] at h; exact h
    · right; right; exact h
  · unfold companyStep
    rw [(addrStep_other lines i
          (dateStep lines i (regStep lines i (nameStep lines i ci)))).2.2.2.1]
    have hn := (nameStep_other lines i ci).2.1
    have hr := (regStep_other lines i (nameStep lines i ci)).2.2.1
    rcases dateStep_date lines i (regStep lines i (nameStep lines i ci)) with h | h | h
    · left; rw [h, hr, hn]
    · right; left; rw [hr, hn] at h; exact h
    · right; right; exact h

/-- C4 amended witness: at the empty state and line 0 of the two-pair
document, instantiating the write-guard characterization. -/
theorem c4_amended_witness :
    ((companyStep twoProposedLines 0 initCompany).company_name = initCompany.company_name ∨
      optFalsy initCompany.company_name = true ∨
      (hasSub (pyStrip (twoProposedLines.getD 0 "")) "Proposed name" &&
        decide (0 + 1 < twoProposedLines.length)) = true) ∧
    ((companyStep twoProposedLines 0 initCompany).registration_number =
        initCompany.registration_number ∨
      optFalsy initCompany.registration_number = true ∨
      (reg12BracketMatch (pyStrip (twoProposedLines.getD 0 "")) ||
        reg12BracketSearch (pyStrip (twoProposedLines.getD 0 ""))) = true) ∧
    ((companyStep twoProposedLines 0 initCompany).incorporation_date =
        initCompany.incorporation_date ∨
      optFalsy initCompany.incorporation_date = true ∨
      (hasSub (pyStrip (twoProposedLines.getD 0 "")) "Incorporation Date" &&
        decide (0 + 1 < twoProposedLines.length)) = true) ∧
    (companyStep twoProposedLines 0 initCompany).business_phone =
      initCompany.business_phone :=
  c4_amended_write_guards twoProposedLines 0 initCompany

/-- C7: the empty block list yields the record with all six scalar fields
`None` and an empty directors list (and, the embedding being total, no
exception). -/
theorem c7_empty_blocks :
    extractKeyInformation [] = ⟨none, none, none, none, none, none, []⟩ := rfl

/-- C8: on Scenario C exactly one director is extracted — TAN WEI MING with
identity number 850315025639 and email tan@company.com; LIM SOOK YEE (inside
the member section) does not appear. -/
theorem c8_scenario_c :
    extractDirectorInfo scenCLines = [tanDirector] := rfl

/-- C9: the engine is a pure function of the block list, so two extractions
from the same blocks yield the same record. -/
theorem c9_deterministic (blocks : List Block) (r1 r2 : ExtractionRecord)
    (h1 : r1 = extractKeyInformation blocks) (h2 : r2 = extractKeyInformation blocks) :
    r1 = r2 := h1.trans h2.symm

/-- C9 witness: two runs on the empty block list coincide. -/
theorem c9_witness : extractKeyInformation [] = extractKeyInformation [] :=
  c9_deterministic [] (extractKeyInformation []) (extractKeyInformation []) rfl rfl

/-- C10: every assignment site of `company_type` in the source stores the
constant `'SDN. BHD.'`, and neither the post-loop fallback nor the key/value
pass touches the field — so the output's `company_type` is `None` or exactly
`"SDN. BHD."` for every block list. -/
theorem c10_company_type_constant (blocks : List Block) :
    (extractKeyInformation blocks).company_type = none ∨
    (extractKeyInformation blocks).company_type = some "SDN. BHD." := by
  unfold extractKeyInformation
  dsimp only
  rw [kvFallback_type]
  dsimp only
  rw [extractCompanyInfo_type]
  unfold extractCompanyLoop
  exact companyLoop_type _ _

/-! ### Deduplication lemmas -/

theorem dedupGo_sublist : ∀ (ds : List Director) (seen : List (String × Option String)),
    (dedupGo seen ds).Sublist ds := by
  intro ds
  induction ds with
  | nil => intro seen; simp [dedupGo]
  | cons d ds ih =>
    intro seen
    rw [dedupGo]
    split_ifs with h
    · exact (ih seen).cons d
    · exact (ih _).cons₂ d

theorem dedupGo_mem : ∀ {ds : List Director} {seen} {d : Director},
    d ∈ dedupGo seen ds →
    dirKey d ∉ seen ∧ ds.find? (fun x => dirKey x == dirKey d) = some d := by
  intro ds
  induction ds with
  | nil => intro seen d h; simp [dedupGo] at h
  | cons x ds ih =>
    intro seen d h
    rw [dedupGo] at h
    split_ifs at h with hx
    · obtain ⟨h1, h2⟩ := ih h
      refine ⟨h1, ?_⟩
      have hf : (dirKey x == dirKey d) = false := by
        simp only [beq_eq_false_iff_ne, ne_eq]
        intro hkeq
        rw [hkeq] at hx
        exact h1 hx
      simp only [List.find?, hf, h2]
    · rcases List.mem_cons.mp h with rfl | hmem
      · refine ⟨hx, ?_⟩
        simp [List.find?]
      · obtain ⟨h1, h2⟩ := ih hmem
        have hne0 : dirKey x ≠ dirKey d := fun he => h1 (he ▸ List.mem_cons_self _ _)
        have hf : (dirKey x == dirKey d) = false := by simpa using hne0
        refine ⟨fun hs => h1 (List.mem_cons_of_mem _ hs), ?_⟩
        simp only [List.find?, hf, h2]

theorem dedupGo_keys_nodup : ∀ (ds : List Director) (seen),
    ((dedupGo seen ds).map dirKey).Nodup := by
  intro ds
  induction ds with
  | nil => intro seen; simp [dedupGo]
  | cons x ds ih =>
    intro seen
    rw [dedupGo]
    split_ifs with h
    · exact ih seen
    · simp only [List.map_cons, List.nodup_cons]
      refine ⟨?_, ih _⟩
      intro hmem
      obtain ⟨d, hd, hkey⟩ := List.mem_map.mp hmem
      exact (dedupGo_mem hd).1 (hkey ▸ List.mem_cons_self _ _)

/-! ### The repair pass never touches names or identity numbers -/

theorem applyPass1_keys (m : List (String × String)) (ds : List Director) :
    (applyPass1 m ds).map dirKey = ds.map dirKey := by
  unfold applyPass1
  rw [List.map_map]
  apply List.map_congr_left
  intro d hd
  dsimp only [Function.comp]
  split_ifs <;> rfl

theorem pass2Step_key (lines : List String) (d : Director) (rem : List String) :
    (pass2Step lines d rem).1.name = d.name ∧
    (pass2Step lines d rem).1.id_number = d.id_number := by
  unfold pass2Step
  split_ifs with h1
  · rcases hf : findFirst (fun i => hasSub (lines.getD i "") d.name) 0 lines.length
        with _ | i <;> simp only [hf]
    · simp
    · split_ifs with h2
      · rcases he : pass2FindEmail lines rem (i - min i 5)
            (min lines.length (i + 15) - (i - min i 5)) with _ | e <;>
          simp only [he] <;> simp
      · simp
  · exact ⟨rfl, rfl⟩

theorem pass2Run_keys (lines : List String) :
    ∀ (ds : List Director) (rem : List String),
    (pass2Run lines ds rem).map dirKey = ds.map dirKey := by
  intro ds
  induction ds with
  | nil => intro rem; rfl
  | cons d ds ih =>
    intro rem
    rw [pass2Run]
    simp only [List.map_cons]
    rw [ih]
    have hk := pass2Step_key lines d rem
    unfold dirKey
    rw [hk.1, hk.2]

theorem emailRepair_keys (lines : List String) (ds : List Director) :
    (emailRepair lines ds).map dirKey = ds.map dirKey := by
  unfold emailRepair
  dsimp only
  rw [pass2Run_keys, applyPass1_keys]

/-! ### Section-provenance lemmas -/

theorem sectionEnd_no_marker (lines : List String) (s i : Nat)
    (hi1 : s < i) (hi2 : i < sectionEnd lines s) (hi3 : i < lines.length) :
    ∀ k, s < k → k ≤ i → memberLodgerMarker (lines.getD k "") = false := by
  intro k hk1 hk2
  unfold sectionEnd at hi2
  rcases hf : findFirst (fun t => memberLodgerMarker (lines.getD t ""))
      (s + 1) (min lines.length (s + 50) - (s + 1)) with _ | k0
  · simp only [hf] at hi2
    exact findFirst_none hf k (by omega) (by omega)
  · simp only [hf] at hi2
    obtain ⟨hp, hka, hkb, hmin⟩ := findFirst_some hf
    exact hmin k (by omega) (by omega)

theorem candidateAt_name {lines : List String} {s e i : Nat} {d : Director}
    (h : candidateAt lines s e i = some d) :
    d.name = pyStrip (lines.getD i "") := by
  unfold candidateAt at h
  dsimp only at h
  split_ifs at h
  simp only [Option.some.injEq] at h
  rw [← h]

theorem scanSection_mem {lines : List String} {s : Nat} {d : Director}
    (h : d ∈ scanSection lines s) :
    ∃ i, s < i ∧ i < lines.length ∧ i < sectionEnd lines s ∧
      d.name = pyStrip (lines.getD i "") := by
  unfold scanSection at h
  dsimp only at h
  obtain ⟨i, hi, hc⟩ := List.mem_filterMap.mp h
  have hb := List.mem_range'_1.mp hi
  exact ⟨i, by omega, by omega, by omega, candidateAt_name hc⟩

theorem rawDirectors_mem {lines : List String} {d : Director}
    (h : d ∈ rawDirectors lines) :
    ∃ s, hasSub (lines.getD s "") "PARTICULARS OF DIRECTOR" = true ∧
      d ∈ scanSection lines s := by
  unfold rawDirectors at h
  obtain ⟨s, hs, hd⟩ := List.mem_flatMap.mp h
  unfold directorStarts at hs
  have hm := List.mem_filter.mp hs
  exact ⟨s, hm.2, hd⟩

/-! ### Claim theorems (directors) -/

/-- C1: every `Director` in the output takes its name from a line that sits
strictly inside a director-kind window: after a line carrying the
director-section marker, before that window's end (the first
member/lodger/"PART C" marker within the bounded look-ahead, else the fixed
offset), with no member/lodger marker anywhere between the opening marker
and the name line.  A line lying only inside member- or lodger-kind sections
(every occurrence preceded more closely by a member/lodger marker than by a
director marker) therefore never appears as a `Director.name`. -/
theorem c1_section_isolation (lines : List String) (d : Director)
    (h : d ∈ extractDirectorInfo lines) :
    ∃ s i, s < i ∧ i < lines.length ∧ i < sectionEnd lines s ∧
      hasSub (lines.getD s "") "PARTICULARS OF DIRECTOR" = true ∧
      (∀ k, s < k → k ≤ i → memberLodgerMarker (lines.getD k "") = false) ∧
      d.name = pyStrip (lines.getD i "") := by
  unfold extractDirectorInfo at h
  have hkey : dirKey d ∈ (dedupDirectors (rawDirectors lines)).map dirKey := by
    rw [← emailRepair_keys lines (dedupDirectors (rawDirectors lines))]
    exact List.mem_map_of_mem dirKey h
  obtain ⟨d0, hd0, hk⟩ := List.mem_map.mp hkey
  have hd0raw : d0 ∈ rawDirectors lines := (dedupGo_sublist _ []).subset hd0
  obtain ⟨s, hs, hscan⟩ := rawDirectors_mem hd0raw
  obtain ⟨i, hi1, hi2, hi3, hname⟩ := scanSection_mem hscan
  have hnames : d.name = d0.name := (congrArg Prod.fst hk).symm
  exact ⟨s, i, hi1, hi2, hi3, hs, sectionEnd_no_marker lines s i hi1 hi3 hi2,
    by rw [hnames, hname]⟩

/-- C1 witness: instantiated on Scenario C for its extracted director. -/
theorem c1_witness :
    ∃ s i, s < i ∧ i < scenCLines.length ∧ i < sectionEnd scenCLines s ∧
      hasSub (scenCLines.getD s "") "PARTICULARS OF DIRECTOR" = true ∧
      (∀ k, s < k → k ≤ i → memberLodgerMarker (scenCLines.getD k "") = false) ∧
      tanDirector.name = pyStrip (scenCLines.getD i "") :=
  c1_section_isolation scenCLines tanDirector (by decide)

/-- C6: no two directors in the output share a `(name, id_number)` key, the
deduplicated list is an order-preserving sublist of the raw candidate list,
and each retained director is the first raw candidate carrying its key. -/
theorem c6_dedup_first_seen (lines : List String) :
    ((extractDirectorInfo lines).map dirKey).Nodup ∧
    (dedupDirectors (rawDirectors lines)).Sublist (rawDirectors lines) ∧
    ∀ d, d ∈ dedupDirectors (rawDirectors lines) →
      (rawDirectors lines).find? (fun x => dirKey x == dirKey d) = some d := by
  refine ⟨?_, dedupGo_sublist _ [], fun d hd => (dedupGo_mem hd).2⟩
  unfold extractDirectorInfo
  rw [emailRepair_keys]
  exact dedupGo_keys_nodup _ []

/-- C6 witness: instantiated on Scenario C for its extracted director. -/
theorem c6_witness :
    ((extractDirectorInfo scenCLines).map dirKey).Nodup ∧
    (rawDirectors scenCLines).find? (fun x => dirKey x == dirKey tanDirector) =
      some tanDirector :=
  ⟨(c6_dedup_first_seen scenCLines).1,
   (c6_dedup_first_seen scenCLines).2.2 tanDirector (by decide)⟩

/-- C2 counterexample: two candidate names in one director section followed
by a single email line — the primary per-candidate scan assigns the same
email to both directors, so the at-most-once invariant fails on the output. -/
theorem c2_counterexample :
    (extractDirectorInfo twoDirOneEmailLines).map (fun d => d.email) =
      [some "alice@test.com", some "alice@test.com"] ∧
    decide (noSharedEmail (extractDirectorInfo twoDirOneEmailLines)) = false :=
  ⟨rfl, rfl⟩

/-! ### The repair map assigns pairwise-distinct emails -/

theorem contains_false_not_mem {l : List String} {a : String}
    (h : l.contains a = false) : a ∉ l := by
  intro hmem
  rw [show l.contains a = l.elem a from rfl, List.elem_iff.mpr hmem] at h
  cases h

theorem replaceEntry_keys (m : List (String × String)) (k v : String) :
    (m.map (fun p => if p.1 == k then (k, v) else p)).map Prod.fst = m.map Prod.fst := by
  rw [List.map_map]
  apply List.map_congr_left
  intro p hp
  dsimp only [Function.comp]
  split_ifs with h
  · exact (beq_iff_eq.mp h).symm
  · rfl

theorem replaceEntry_values_mem {m : List (String × String)} {k v x : String}
    (h : x ∈ (m.map (fun p => if p.1 == k then (k, v) else p)).map Prod.snd) :
    x = v ∨ x ∈ m.map Prod.snd := by
  rw [List.map_map] at h
  obtain ⟨p, hp, he⟩ := List.mem_map.mp h
  dsimp only [Function.comp] at he
  by_cases hc : (p.1 == k) = true
  · rw [if_pos hc] at he
    left; exact he.symm
  · rw [if_neg hc] at he
    right; exact he ▸ List.mem_map_of_mem Prod.snd hp

theorem replaceEntry_values_nodup (k v : String) : ∀ (m : List (String × String)),
    (m.map Prod.fst).Nodup → (m.map Prod.snd).Nodup → v ∉ m.map Prod.snd →
    ((m.map (fun p => if p.1 == k then (k, v) else p)).map Prod.snd).Nodup := by
  intro m
  induction m with
  | nil => intro _ _ _; simp
  | cons p m ih =>
    intro hk hv hnew
    simp only [List.map_cons, List.nodup_cons] at hk hv ⊢
    simp only [List.map_cons, List.mem_cons, not_or] at hnew
    by_cases hc : (p.1 == k) = true
    · rw [if_pos hc]
      dsimp only
      have htail : m.map (fun q => if q.1 == k then (k, v) else q) = m := by
        have hpk : p.1 = k := beq_iff_eq.mp hc
        conv_rhs => rw [← List.map_id m]
        apply List.map_congr_left
        intro q hq
        have hqk : (q.1 == k) = false := by
          rw [beq_eq_false_iff_ne]
          intro he
          exact hk.1 (by rw [hpk, ← he]; exact List.mem_map_of_mem Prod.fst hq)
        rw [hqk]
        simp
      rw [htail]
      exact ⟨hnew.2, hv.2⟩
    · rw [if_neg hc]
      refine ⟨?_, ih hk.2 hv.2 hnew.2⟩
      intro hmem
      rcases replaceEntry_values_mem hmem with he | hmem2
      · exact hnew.1 he.symm
      · exact hv.1 hmem2

theorem upsert_inv {m : List (String × String)} {k v : String}
    (hk : (m.map Prod.fst).Nodup) (hv : (m.map Prod.snd).Nodup)
    (hnew : v ∉ m.map Prod.snd) :
    ((upsert m k v).map Prod.fst).Nodup ∧ ((upsert m k v).map Prod.snd).Nodup := by
  unfold upsert
  split_ifs with h
  · exact ⟨by rw [replaceEntry_keys]; exact hk, replaceEntry_values_nodup k v m hk hv hnew⟩
  · have hknotin : k ∉ m.map Prod.fst := by
      intro hmem
      obtain ⟨p, hp, he⟩ := List.mem_map.mp hmem
      apply h
      rw [List.any_eq_true]
      exact ⟨p, hp, by rw [he]; exact beq_self_eq_true k⟩
    constructor
    · rw [List.map_append]
      simp only [List.map_cons, List.map_nil]
      rw [List.nodup_append]
      exact ⟨hk, List.nodup_singleton k, by simpa [List.disjoint_singleton] using hknotin⟩
    · rw [List.map_append]
      simp only [List.map_cons, List.map_nil]
      rw [List.nodup_append]
      exact ⟨hv, List.nodup_singleton v, by simpa [List.disjoint_singleton] using hnew⟩

theorem pass1ForDirector_cases (lines : List String) (m : List (String × String))
    (d : Director) :
    pass1ForDirector lines m d = m ∨
    ∃ i j, findFirst (fun t => hasSub (lines.getD t "") d.name) 0 lines.length = some i ∧
      backSectionCheck lines i = true ∧
      ((i + 1 ≤ j ∧ j < min lines.length (i + 16)) ∨ (i - min i 5 ≤ j ∧ j < i)) ∧
      emailish (lines.getD j "") = true ∧
      (mapValues m).contains (pyStrip (lines.getD j "")) = false ∧
      pass1ForDirector lines m d = upsert m d.name (pyStrip (lines.getD j "")) := by
  unfold pass1ForDirector
  split
  · left; rfl
  · split
    · left; rfl
    · rename_i i hf
      split
      · rename_i hbc
        split
        · rename_i j hj
          right
          obtain ⟨hp, hj1, hj2, _⟩ := findFirst_some hj
          simp only [Bool.and_eq_true, Bool.not_eq_true'] at hp
          exact ⟨i, j, hf, hbc, Or.inl ⟨hj1, by omega⟩, hp.1, hp.2, rfl⟩
        · split
          · left; rfl
          · split
            · rename_i j2 hb
              right
              obtain ⟨hp, hb1, hb2, _⟩ := findFirst_some hb
              simp only [Bool.and_eq_true, Bool.not_eq_true'] at hp
              exact ⟨i, j2, hf, hbc, Or.inr ⟨hb1, by omega⟩, hp.1, hp.2, rfl⟩
            · left; rfl
      · left; rfl

theorem pass1ForDirector_inv (lines : List String) (d : Director)
    {m : List (String × String)}
    (hk : (m.map Prod.fst).Nodup) (hv : (m.map Prod.snd).Nodup) :
    ((pass1ForDirector lines m d).map Prod.fst).Nodup ∧
    ((pass1ForDirector lines m d).map Prod.snd).Nodup := by
  rcases pass1ForDirector_cases lines m d with he | ⟨i, j, _, _, _, _, hcont, heq⟩
  · rw [he]; exact ⟨hk, hv⟩
  · rw [heq]; exact upsert_inv hk hv (contains_false_not_mem hcont)

/-- C2 (amended): the `director_emails` map built by the repair pass never
records the same email for two different names — each recording site is
guarded by the email not yet being among the map's values.  (The primary
per-candidate scan has no such pool, so the full output can still carry one
email on two directors, as the counterexample shows.) -/
theorem c2_amended_repair_distinct (lines : List String) (ds : List Director) :
    ((pass1Build lines ds []).map Prod.snd).Nodup := by
  unfold pass1Build
  refine (foldl_inv (fun m : List (String × String) =>
      (m.map Prod.fst).Nodup ∧ (m.map Prod.snd).Nodup)
    (pass1ForDirector lines) ?_ ds [] ⟨List.nodup_nil, List.nodup_nil⟩).2
  intro m d hm
  exact pass1ForDirector_inv lines d hm.1 hm.2

/-- C5 counterexample: the sole director of the document (lines 2-3 of its
only director window, which closes at the member marker on line 4) gets the
email `lim@members.com` from the repair pass, yet the only email-shaped line
of the document is line 6, which lies after the member marker — outside
every director-kind section. -/
theorem c5_counterexample :
    extractDirectorInfo memberEmailLines =
      [⟨"TAN AH KOW", "NRIC", some "850315025639", some "lim@members.com"⟩] ∧
    directorStarts memberEmailLines = [1] ∧
    sectionEnd memberEmailLines 1 = 4 ∧
    hasSub (memberEmailLines.getD 4 "") "PARTICULARS OF MEMBER" = true ∧
    decide (∀ j, j < memberEmailLines.length →
      emailish (memberEmailLines.getD j "") = true → j = 6) = true :=
  ⟨rfl, rfl, rfl, rfl, by decide⟩

theorem pass2FindEmail_some {lines rem : List String} {a count : Nat} {e : String}
    (h : pass2FindEmail lines rem a count = some e) :
    ∃ j, a ≤ j ∧ j < a + count ∧ stillInDirector lines j = true ∧
      e ∈ rem ∧ hasSub (lines.getD j "") e = true := by
  unfold pass2FindEmail at h
  obtain ⟨j, hj, hfj⟩ := List.exists_of_findSome?_eq_some h
  have hjb := List.mem_range'_1.mp hj
  by_cases hs : stillInDirector lines j = true
  · rw [if_pos hs] at hfj
    exact ⟨j, hjb.1, hjb.2, hs, List.mem_of_find?_eq_some hfj, List.find?_some hfj⟩
  · rw [if_neg hs] at hfj
    cases hfj

theorem pass2Step_cases (lines : List String) (d : Director) (rem : List String) :
    pass2Step lines d rem = (d, rem) ∨
    ∃ i e, findFirst (fun t => hasSub (lines.getD t "") d.name) 0 lines.length = some i ∧
      backSectionCheck lines i = true ∧
      pass2FindEmail lines rem (i - min i 5)
        (min lines.length (i + 15) - (i - min i 5)) = some e ∧
      pass2Step lines d rem = ({ d with email := some e }, rem.erase e) := by
  unfold pass2Step
  split
  · split
    · left; rfl
    · rename_i i hf
      split
      · rename_i hbc
        split
        · rename_i e he
          right
          exact ⟨i, e, hf, hbc, he, rfl⟩
        · left; rfl
      · left; rfl
  · left; rfl

/-- C5 (amended): whenever the repair pass assigns an email to a director
still missing one, that email comes from a line inside a fixed window around
the first occurrence `i` of the director's name, where the occurrence line
`i` itself passed the backward director-section check — and the email line
itself is never checked to lie inside a director-kind section.  First
sub-pass (the `director_emails` map, one recording per name, values excluded
from the pool): the email line sits in `range(i+1, min(len, i+16))` or
`range(max(0, i-5), i)`.  Second sub-pass (applied once per director by
`pass2Run`, threading the shared pool): the assigned pool email occurs as a
substring of a line in `range(max(0, i-5), min(len, i+15))` that passed only
the forward ten-line member/lodger probe, and the email is removed from the
pool. -/
theorem c5_amended_window (lines : List String) (m : List (String × String))
    (d : Director) (rem : List String) :
    (pass1ForDirector lines m d = m ∨
      ∃ i j, findFirst (fun t => hasSub (lines.getD t "") d.name) 0 lines.length = some i ∧
        backSectionCheck lines i = true ∧
        ((i + 1 ≤ j ∧ j < min lines.length (i + 16)) ∨ (i - min i 5 ≤ j ∧ j < i)) ∧
        emailish (lines.getD j "") = true ∧
        pass1ForDirector lines m d = upsert m d.name (pyStrip (lines.getD j ""))) ∧
    (pass2Step lines d rem = (d, rem) ∨
      ∃ i j e, findFirst (fun t => hasSub (lines.getD t "") d.name) 0 lines.length = some i ∧
        backSectionCheck lines i = true ∧
        (i - min i 5 ≤ j ∧ j < min lines.length (i + 15)) ∧
        stillInDirector lines j = true ∧
        e ∈ rem ∧ hasSub (lines.getD j "") e = true ∧
        pass2Step lines d rem = ({ d with email := some e }, rem.erase e)) := by
  constructor
  · rcases pass1ForDirector_cases lines m d with he | ⟨i, j, hf, hbc, hw, hem, _, heq⟩
    · left; exact he
    · right; exact ⟨i, j, hf, hbc, hw, hem, heq⟩
  · rcases pass2Step_cases lines d rem with he | ⟨i, e, hf, hbc, hfe, heq⟩
    · left; exact he
    · obtain ⟨j, hj1, hj2, hs, hmem, hsub⟩ := pass2FindEmail_some hfe
      right
      exact ⟨i, j, e, hf, hbc, ⟨hj1, by omega⟩, hs, hmem, hsub, heq⟩

/-- C2 amended witness: instantiated on the shared-email document. -/
theorem c2_amended_witness :
    ((pass1Build twoDirOneEmailLines
        (dedupDirectors (rawDirectors twoDirOneEmailLines)) []).map Prod.snd).Nodup :=
  c2_amended_repair_distinct twoDirOneEmailLines
    (dedupDirectors (rawDirectors twoDirOneEmailLines))

/-- C5 amended witness: instantiated on the member-email document for its
email-less director, the empty map and the document's email pool. -/
theorem c5_amended_witness :
    (pass1ForDirector memberEmailLines [] tanNoEmail = [] ∨
      ∃ i j, findFirst (fun t => hasSub (memberEmailLines.getD t "") tanNoEmail.name)
          0 memberEmailLines.length = some i ∧
        backSectionCheck memberEmailLines i = true ∧
        ((i + 1 ≤ j ∧ j < min memberEmailLines.length (i + 16)) ∨
          (i - min i 5 ≤ j ∧ j < i)) ∧
        emailish (memberEmailLines.getD j "") = true ∧
        pass1ForDirector memberEmailLines [] tanNoEmail =
          upsert [] tanNoEmail.name (pyStrip (memberEmailLines.getD j ""))) ∧
    (pass2Step memberEmailLines tanNoEmail ["lim@members.com"] =
        (tanNoEmail, ["lim@members.com"]) ∨
      ∃ i j e, findFirst (fun t => hasSub (memberEmailLines.getD t "") tanNoEmail.name)
          0 memberEmailLines.length = some i ∧
        backSectionCheck memberEmailLines i = true ∧
        (i - min i 5 ≤ j ∧ j < min memberEmailLines.length (i + 15)) ∧
        stillInDirector memberEmailLines j = true ∧
        e ∈ ["lim@members.com"] ∧ hasSub (memberEmailLines.getD j "") e = true ∧
        pass2Step memberEmailLines tanNoEmail ["lim@members.com"] =
          ({ tanNoEmail with email := some e }, ["lim@members.com"].erase e)) :=
  c5_amended_window memberEmailLines [] tanNoEmail ["lim@members.com"]

/-- C10 witness: instantiated on the empty block list. -/
theorem c10_witness :
    (extractKeyInformation []).company_type = none ∨
    (extractKeyInformation []).company_type = some "SDN. BHD." :=
  c10_company_type_constant []

end Ocr
